import Mathlib

/-!
Verification of the segment translation synchronization engine
(`src/bot/translate_page.py`, `src/bot/placeholders.py`) against its
natural-language specification.

The Python code is shallowly embedded: pure functions over strings become
Lean functions over `String` / `List Char`; external collaborators
(the MediaWiki content store, the Google translation provider, the
Postgres cache, `hashlib.sha256` and `unicodedata.normalize("NFC", ·)`)
become explicit parameters.  Regular-expression based rewriting is
embedded by dedicated scanners that reproduce the exact matching
semantics of the Python patterns (leftmost match, greediness and the
limited backtracking each concrete pattern can perform).
-/

namespace WikiBot

/-! ## Python string primitives -/

/-- Whitespace as recognized by Python's `str.strip()` / regex `\s`. -/
def pyIsSpace (c : Char) : Bool :=
  c == ' ' || c == '\t' || c == '\n' || c == '\r' || c == '\x0b' || c == '\x0c' ||
  c == '\x1c' || c == '\x1d' || c == '\x1e' || c == '\x1f' || c == '\x85' || c == '\xa0' ||
  c == '\u1680' || ('\u2000' ≤ c && c ≤ '\u200a') || c == '\u2028' || c == '\u2029' ||
  c == '\u202f' || c == '\u205f' || c == '\u3000'

def pyLstripWith (p : Char → Bool) (l : List Char) : List Char := l.dropWhile p

def pyRstripWith (p : Char → Bool) (l : List Char) : List Char :=
  (l.reverse.dropWhile p).reverse

/-- Python `str.strip()` over a character predicate (strip right, then left —
the two orders agree). -/
def pyStripWith (p : Char → Bool) (l : List Char) : List Char :=
  pyLstripWith p (pyRstripWith p l)

def pyStrip (s : String) : String := String.mk (pyStripWith pyIsSpace s.data)

def LF : Char := '\n'
def CR : Char := '\r'

/-! ## `_toggle_trailing_newline` and `_normalized_text_equivalent` -/

/-- Python `text.endswith("\n")`. -/
def endswithLF (l : List Char) : Bool := l.getLast? == some LF

/-- Python `text.rstrip("\n")`: drop every trailing newline. -/
def rstripLFList (l : List Char) : List Char := (l.reverse.dropWhile (· == LF)).reverse

/-- List-level body of `_toggle_trailing_newline`. -/
def toggleL (l : List Char) : List Char :=
  if endswithLF l then rstripLFList l else l ++ [LF]

/-- `_toggle_trailing_newline` (translate_page.py): if the text ends with a
newline, strip all trailing newlines, otherwise append one. -/
def toggle_trailing_newline (s : String) : String := String.mk (toggleL s.data)

/-- Python `text.replace("\r\n", "\n")` (left-to-right, non-overlapping). -/
def replaceCRLF : List Char → List Char
  | [] => []
  | [c] => [c]
  | c1 :: c2 :: rest =>
    if c1 = CR ∧ c2 = LF then LF :: replaceCRLF rest
    else c1 :: replaceCRLF (c2 :: rest)

/-- Python `text.replace("\r", "\n")` applied after the CRLF replacement. -/
def replaceCR (l : List Char) : List Char := l.map (fun c => if c = CR then LF else c)

/-- Newline canonicalization performed by `_normalized_text_equivalent`
before the NFC step. -/
def newlineCanon (l : List Char) : List Char := replaceCR (replaceCRLF l)

/-- `_normalized_text_equivalent` (translate_page.py).  The call
`unicodedata.normalize("NFC", text)` is an external library; it enters the
embedding as the parameter `nfc`. -/
def normalized_text_equivalent (nfc : List Char → List Char) (s : String) : String :=
  String.mk (pyStripWith pyIsSpace (nfc (newlineCanon s.data)))

/-! ## Scanner infrastructure for the embedded regular expressions -/

def asciiLowerChar (c : Char) : Char :=
  if 'A' ≤ c ∧ c ≤ 'Z' then Char.ofNat (c.toNat + 32) else c

/-- Python `str.lower()` restricted to ASCII (the only case-folding the
status strings and pattern literals in this code base exercise). -/
def pyLower (s : String) : String := String.mk (s.data.map asciiLowerChar)

/-- Word character for the regex `\b` boundary (ASCII `\w`). -/
def isWordChar (c : Char) : Bool :=
  ('A' ≤ c && c ≤ 'Z') || ('a' ≤ c && c ≤ 'z') || ('0' ≤ c && c ≤ '9') || c == '_'

/-- Case-insensitive match of an ASCII pattern (given lowercase) against the
head of the input; returns the consumed characters as written and the rest. -/
def ciPrefixMatch : List Char → List Char → Option (List Char × List Char)
  | [], l => some ([], l)
  | _ :: _, [] => none
  | p :: ps, c :: cs =>
    if asciiLowerChar c = p then
      match ciPrefixMatch ps cs with
      | some (m, r) => some (c :: m, r)
      | none => none
    else none

/-- Case-sensitive literal match at the head of the input. -/
def litPrefixMatch (pat l : List Char) : Option (List Char × List Char) :=
  if l.take pat.length = pat then some (pat, l.drop pat.length) else none

/-- Lazy `.*?PAT` (DOTALL): consume the shortest run of arbitrary characters
up to and including the first (case-insensitive) occurrence of the pattern. -/
def lazyUpToCi (pat : List Char) : Nat → List Char → Option (List Char × List Char)
  | 0, _ => none
  | _ + 1, [] => none
  | fuel + 1, l =>
    match ciPrefixMatch pat l with
    | some (m, r) => some (m, r)
    | none =>
      match l with
      | [] => none
      | c :: cs =>
        match lazyUpToCi pat fuel cs with
        | some (m, r) => some (c :: m, r)
        | none => none

/-- Regex `\b` test between the already-consumed word character and the rest
of the input: holds at end of input or when the next character is not a word
character. -/
def wordBoundary (rest : List Char) : Bool :=
  match rest with
  | [] => true
  | c :: _ => !isWordChar c

/-! ## placeholders.py -/

/-- `PlaceholderResult` (placeholders.py); the insertion-ordered Python dict
becomes an insertion-ordered association list. -/
structure PlaceholderResult where
  text : String
  placeholders : List (String × String)
deriving Repr, DecidableEq

/-- `__PH{n}__` key generation used by every protection pass. -/
def phKey (n : Nat) : String := "__PH" ++ toString n ++ "__"

/-- `REF_BLOCK_RE = <ref\b[^>]*>.*?</ref>` (IGNORECASE | DOTALL). -/
def tryRefBlock (l : List Char) : Option (List Char × List Char) :=
  match ciPrefixMatch "<ref".data l with
  | none => none
  | some (m0, r0) =>
    if wordBoundary r0 then
      let attrs := r0.takeWhile (· ≠ '>')
      let r1 := r0.dropWhile (· ≠ '>')
      match r1 with
      | '>' :: r2 =>
        match lazyUpToCi "</ref>".data (r2.length + 1) r2 with
        | some (body, r3) => some (m0 ++ attrs ++ '>' :: body, r3)
        | none => none
      | _ => none
    else none

/-- Shared tail of the self-closing patterns `...\b[^>]*/\s*>`: the maximal
non-`>` run must end in `/` followed only by whitespace. -/
def selfClosingTail (m0 r0 : List Char) : Option (List Char × List Char) :=
  let attrs := r0.takeWhile (· ≠ '>')
  let r1 := r0.dropWhile (· ≠ '>')
  match r1 with
  | '>' :: r2 =>
    let revAttrs := attrs.reverse
    match revAttrs.dropWhile pyIsSpace with
    | '/' :: _ => some (m0 ++ attrs ++ ['>'], r2)
    | _ => none
  | _ => none

/-- `REF_SELF_RE = <ref\b[^>]*/\s*>` (IGNORECASE). -/
def tryRefSelf (l : List Char) : Option (List Char × List Char) :=
  match ciPrefixMatch "<ref".data l with
  | none => none
  | some (m0, r0) => if wordBoundary r0 then selfClosingTail m0 r0 else none

/-- `REFERENCES_BLOCK_RE = <references\b[^>]*>.*?</references>` (IGNORECASE | DOTALL). -/
def tryReferencesBlock (l : List Char) : Option (List Char × List Char) :=
  match ciPrefixMatch "<references".data l with
  | none => none
  | some (m0, r0) =>
    if wordBoundary r0 then
      let attrs := r0.takeWhile (· ≠ '>')
      let r1 := r0.dropWhile (· ≠ '>')
      match r1 with
      | '>' :: r2 =>
        match lazyUpToCi "</references>".data (r2.length + 1) r2 with
        | some (body, r3) => some (m0 ++ attrs ++ '>' :: body, r3)
        | none => none
      | _ => none
    else none

/-- `REFERENCES_SELF_RE = <references\b[^>]*/\s*>` (IGNORECASE). -/
def tryReferencesSelf (l : List Char) : Option (List Char × List Char) :=
  match ciPrefixMatch "<references".data l with
  | none => none
  | some (m0, r0) => if wordBoundary r0 then selfClosingTail m0 r0 else none

/-- `COMMENT_RE = <!--.*?-->` (DOTALL). -/
def tryComment (l : List Char) : Option (List Char × List Char) :=
  match litPrefixMatch "<!--".data l with
  | none => none
  | some (m0, r0) =>
    match lazyUpToCi "-->".data (r0.length + 1) r0 with
    | some (body, r1) => some (m0 ++ body, r1)
    | none => none

def isMagicClassChar (c : Char) : Bool :=
  ('A' ≤ c && c ≤ 'Z') || ('0' ≤ c && c ≤ '9') || c == '_'

/-- Largest split index `k ≥ 1` of the class run `m` such that
`m[k] = m[k+1] = '_'` — the backtracking the greedy `[A-Z0-9_]+` performs
before the closing literal `__`. -/
def magicSplit (m : List Char) : Option Nat :=
  let n := m.length
  (List.range n).reverse.find? fun k =>
    decide (1 ≤ k) && decide (k + 1 < n) &&
      (m.get? k == some '_') && (m.get? (k + 1) == some '_')

/-- `MAGIC_WORD_RE = __([A-Z0-9_]+)__`. -/
def tryMagic (l : List Char) : Option (List Char × List Char) :=
  match litPrefixMatch "__".data l with
  | none => none
  | some (m0, r0) =>
    let run := r0.takeWhile isMagicClassChar
    let rest := r0.dropWhile isMagicClassChar
    match magicSplit run with
    | some k => some (m0 ++ run.take k ++ ['_', '_'], run.drop (k + 2) ++ rest)
    | none => none

/-- `FILE_LINK_FULL_RE = \[\[(?:File|Image):[^\]]+\]\]` (IGNORECASE). -/
def tryFileLinkFull (l : List Char) : Option (List Char × List Char) :=
  match litPrefixMatch "[[".data l with
  | none => none
  | some (m0, r0) =>
    let tryNs : Option (List Char × List Char) :=
      match ciPrefixMatch "file:".data r0 with
      | some v => some v
      | none => ciPrefixMatch "image:".data r0
    match tryNs with
    | none => none
    | some (m1, r1) =>
      let body := r1.takeWhile (· ≠ ']')
      let r2 := r1.dropWhile (· ≠ ']')
      if body.isEmpty then none
      else
        match litPrefixMatch "]]".data r2 with
        | none => none
        | some (m2, r3) => some (m0 ++ m1 ++ body ++ m2, r3)

/-- `URL_RE = https?://\S+` (case-sensitive). -/
def tryUrl (l : List Char) : Option (List Char × List Char) :=
  match litPrefixMatch "http".data l with
  | none => none
  | some (m0, r0) =>
    let (ms, r1) :=
      match litPrefixMatch "s".data r0 with
      | some (m, r) => (m, r)
      | none => (([] : List Char), r0)
    match litPrefixMatch "://".data r1 with
    | none => none
    | some (m1, r2) =>
      let body := r2.takeWhile (fun c => !pyIsSpace c)
      let rest := r2.dropWhile (fun c => !pyIsSpace c)
      if body.isEmpty then none else some (m0 ++ ms ++ m1 ++ body, rest)

/-- `re.sub` with a placeholder-recording replacement function: leftmost,
non-overlapping matches, the replacement key is not rescanned. -/
def phSubst (scan : List Char → Option (List Char × List Char)) :
    Nat → List Char → List (String × String) → List Char × List (String × String)
  | 0, l, phs => (l, phs)
  | _ + 1, [], phs => ([], phs)
  | fuel + 1, c :: rest, phs =>
    match scan (c :: rest) with
    | some (matched, after) =>
      let key := phKey phs.length
      let next := phSubst scan fuel after (phs ++ [(key, String.mk matched)])
      (key.data ++ next.1, next.2)
    | none =>
      let next := phSubst scan fuel rest phs
      (c :: next.1, next.2)

/-- `_extract_balanced` (placeholders.py): top-level balanced spans of
`open_tok … close_tok`, as index pairs. -/
def extractBalancedGo (openT closeT l : List Char) :
    Nat → Nat → Nat → Option Nat → List (Nat × Nat) → List (Nat × Nat)
  | 0, _, _, _, spans => spans.reverse
  | fuel + 1, i, depth, start, spans =>
    if i < l.length - 1 then
      if (l.drop i).take openT.length = openT then
        extractBalancedGo openT closeT l fuel (i + openT.length) (depth + 1)
          (if depth = 0 then some i else start) spans
      else if (l.drop i).take closeT.length = closeT ∧ 0 < depth then
        if depth = 1 then
          match start with
          | some s => extractBalancedGo openT closeT l fuel (i + closeT.length) 0 none
              ((s, i + closeT.length) :: spans)
          | none => extractBalancedGo openT closeT l fuel (i + closeT.length) 0 none spans
        else
          extractBalancedGo openT closeT l fuel (i + closeT.length) (depth - 1) start spans
      else
        extractBalancedGo openT closeT l fuel (i + 1) depth start spans
    else spans.reverse

def extractBalanced (l openT closeT : List Char) : List (Nat × Nat) :=
  extractBalancedGo openT closeT l (l.length + 1) 0 0 none []

/-- `_replace_spans` (placeholders.py). -/
def replaceSpans (l : List Char) (spans : List (Nat × Nat))
    (phs : List (String × String)) : List Char × List (String × String) :=
  if spans = [] then (l, phs)
  else
    let step := spans.foldl
      (fun (acc : List Char × List (String × String) × Nat) (se : Nat × Nat) =>
        let (out, phsAcc, last) := acc
        let key := phKey phsAcc.length
        let span := (l.drop se.1).take (se.2 - se.1)
        (out ++ (l.drop last).take (se.1 - last) ++ key.data,
         phsAcc ++ [(key, String.mk span)], se.2))
      ([], phs, 0)
    (step.1 ++ l.drop step.2.2, step.2.1)

def openBraces : List Char := ['\x7b', '\x7b']
def closeBraces : List Char := ['\x7d', '\x7d']
def openBrackets : List Char := ['[', '[']
def closeBrackets : List Char := [']', ']']

/-- `protect_wikitext` (placeholders.py): refs, comments, magic words,
file links, balanced templates, balanced links (optional), URLs. -/
def protect_wikitext (text : String) (protect_links : Bool := true) : PlaceholderResult :=
  let l0 := text.data
  let s1 := phSubst tryReferencesBlock (l0.length + 1) l0 []
  let s2 := phSubst tryReferencesSelf (s1.1.length + 1) s1.1 s1.2
  let s3 := phSubst tryRefBlock (s2.1.length + 1) s2.1 s2.2
  let s4 := phSubst tryRefSelf (s3.1.length + 1) s3.1 s3.2
  let s5 := phSubst tryComment (s4.1.length + 1) s4.1 s4.2
  let s6 := phSubst tryMagic (s5.1.length + 1) s5.1 s5.2
  let s7 := phSubst tryFileLinkFull (s6.1.length + 1) s6.1 s6.2
  let s8 := replaceSpans s7.1 (extractBalanced s7.1 openBraces closeBraces) s7.2
  let s9 :=
    if protect_links then
      replaceSpans s8.1 (extractBalanced s8.1 openBrackets closeBrackets) s8.2
    else s8
  let s10 := phSubst tryUrl (s9.1.length + 1) s9.1 s9.2
  { text := String.mk s10.1, placeholders := s10.2 }

/-- Python `text.replace(pat, rep)`: every non-overlapping occurrence,
left to right. -/
def listReplaceAll (pat rep : List Char) : Nat → List Char → List Char
  | 0, l => l
  | _ + 1, [] => []
  | fuel + 1, c :: rest =>
    if pat ≠ [] ∧ (c :: rest).take pat.length = pat then
      rep ++ listReplaceAll pat rep fuel ((c :: rest).drop pat.length)
    else c :: listReplaceAll pat rep fuel rest

/-- `restore_wikitext` (placeholders.py): replace each recorded key by its
original, in dict insertion order. -/
def restore_wikitext (text : String) (placeholders : List (String × String)) : String :=
  if placeholders = [] then text
  else String.mk (placeholders.foldl
    (fun acc kv => listReplaceAll kv.1.data kv.2.data (acc.length + 1) acc) text.data)

/-! ## translate_page.py: internal-link machinery -/

/-- `LINK_RE = \[\[([^\]|]+)(?:\|([^\]]+))?\]\]` matched at the head of the
input: returns (target, optional display, rest). -/
def tryLinkAt (l : List Char) : Option (List Char × Option (List Char) × List Char) :=
  match litPrefixMatch "[[".data l with
  | none => none
  | some (_, r0) =>
    let target := r0.takeWhile (fun c => c != ']' && c != '|')
    let r1 := r0.dropWhile (fun c => c != ']' && c != '|')
    if target.isEmpty then none
    else
      match r1 with
      | '|' :: r2 =>
        let disp := r2.takeWhile (· != ']')
        let r3 := r2.dropWhile (· != ']')
        if disp.isEmpty then none
        else
          match litPrefixMatch "]]".data r3 with
          | some (_, r4) => some (target, some disp, r4)
          | none => none
      | _ =>
        match litPrefixMatch "]]".data r1 with
        | some (_, r4) => some (target, none, r4)
        | none => none

/-- `LINK_RE.sub(repl, text)` for a pure replacement function of the two
captured groups. -/
def linkSub (repl : List Char → Option (List Char) → List Char) :
    Nat → List Char → List Char
  | 0, l => l
  | _ + 1, [] => []
  | fuel + 1, c :: rest =>
    match tryLinkAt (c :: rest) with
    | some (target, disp, after) => repl target disp ++ linkSub repl fuel after
    | none => c :: linkSub repl fuel rest

/-- `match.group(0)` of a `LINK_RE` match, reassembled from the groups. -/
def linkWhole (target : List Char) (disp : Option (List Char)) : List Char :=
  "[[".data ++ target ++ (match disp with | some d => '|' :: d | none => []) ++ "]]".data

/-- `_is_safe_internal_link` (translate_page.py): no namespace colon. -/
def is_safe_internal_link (target : String) : Bool := !(target.data.contains ':')

/-- Python `page.rsplit("/", 1)` when a slash exists. -/
def rsplitSlashOnce (l : List Char) : Option (List Char × List Char) :=
  let r := l.reverse
  let tailRev := r.takeWhile (· != '/')
  match r.dropWhile (· != '/') with
  | '/' :: headRev => some (headRev.reverse, tailRev.reverse)
  | _ => none

/-- `_strip_known_lang_suffix` (translate_page.py). -/
def strip_known_lang_suffix (page : String) (known_langs : List String) : String :=
  match rsplitSlashOnce page.data with
  | none => page
  | some (head, tail) =>
    if known_langs.contains (String.mk tail) then String.mk head else page

/-- Python `(target.split("#", 1) + [""])[:2]`. -/
def splitHashOnce (l : List Char) : List Char × List Char :=
  (l.takeWhile (· != '#'),
   match l.dropWhile (· != '#') with
   | '#' :: rest => rest
   | _ => [])

/-! ## `_tokenize_links` -/

structure TokenizeState where
  placeholders : List (String × String)
  link_meta : List (String × String)
  source_targets : List String
  required_tokens : List String
deriving Repr, DecidableEq

def zzzKey (n : Nat) : String := "ZZZLINK" ++ toString n ++ "ZZZ"

def tokenizeLinksGo (lang : String) (known_langs : List String) :
    Nat → List Char → TokenizeState → List Char × TokenizeState
  | 0, l, st => (l, st)
  | _ + 1, [], st => ([], st)
  | fuel + 1, c :: rest, st =>
    match tryLinkAt (c :: rest) with
    | some (targetL, dispL, after) =>
      let target := String.mk targetL
      if !is_safe_internal_link target then
        let next := tokenizeLinksGo lang known_langs fuel after st
        (linkWhole targetL dispL ++ next.1, next.2)
      else
        let (pageL, anchorL) := splitHashOnce targetL
        let page := String.mk pageL
        let base_page := strip_known_lang_suffix page known_langs
        let st1 := { st with source_targets :=
          if st.source_targets.contains base_page then st.source_targets
          else st.source_targets ++ [base_page] }
        let new_target0 :=
          if ("/" ++ lang).data.isSuffixOf pageL then page else base_page ++ "/" ++ lang
        let new_target :=
          if anchorL.isEmpty then new_target0 else new_target0 ++ "#" ++ String.mk anchorL
        let token := zzzKey st1.placeholders.length
        let st2 :=
          match dispL with
          | none =>
            { st1 with
              placeholders := st1.placeholders ++ [(token, "[[" ++ new_target ++ "]]")],
              required_tokens := st1.required_tokens ++ [token] }
          | some d =>
            { st1 with
              placeholders := st1.placeholders ++
                [(token, "[[" ++ new_target ++ "|" ++ String.mk d ++ "]]")],
              link_meta := st1.link_meta ++ [(new_target, String.mk d)],
              required_tokens := st1.required_tokens ++ [token] }
        let next := tokenizeLinksGo lang known_langs fuel after st2
        (token.data ++ next.1, next.2)
    | none =>
      let next := tokenizeLinksGo lang known_langs fuel rest st
      (c :: next.1, next.2)

structure TokenizeResult where
  text : String
  placeholders : List (String × String)
  link_meta : List (String × String)
  source_targets : List String
  required_tokens : List String
deriving Repr, DecidableEq

/-- `_tokenize_links` (translate_page.py lines 350–387).  The Python sets
become insertion-ordered duplicate-free lists. -/
def tokenize_links (text lang : String) (known_langs : List String) : TokenizeResult :=
  let res := tokenizeLinksGo lang known_langs (text.data.length + 1) text.data
    { placeholders := [], link_meta := [], source_targets := [], required_tokens := [] }
  { text := String.mk res.1, placeholders := res.2.placeholders,
    link_meta := res.2.link_meta, source_targets := res.2.source_targets,
    required_tokens := res.2.required_tokens }

/-! ## `_rewrite_internal_links_to_lang_with_source` -/

/-- The `_repl` closure of `_rewrite_internal_links_to_lang_with_source`
(translate_page.py lines 871–899); `known_langs` already contains `lang`
(added by the enclosing function). -/
def rewriteInternalLinkRepl (lang : String) (source_targets : List String)
    (implicit_display_by_target : List (String × String)) (known_langs : List String)
    (targetL : List Char) (dispL : Option (List Char)) : List Char :=
  let target := String.mk targetL
  let has_explicit_display := dispL.isSome
  let display0 := match dispL with | some d => String.mk d | none => target
  if !is_safe_internal_link target then linkWhole targetL dispL
  else
    let (pageL, anchorL) := splitHashOnce targetL
    let page := String.mk pageL
    let base_page := strip_known_lang_suffix page known_langs
    let new_target0 :=
      if ("/" ++ lang).data.isSuffixOf pageL || !source_targets.contains base_page then page
      else page ++ "/" ++ lang
    let new_target :=
      if anchorL.isEmpty then new_target0 else new_target0 ++ "#" ++ String.mk anchorL
    if !has_explicit_display then
      match implicit_display_by_target.lookup base_page with
      | some localized =>
        if localized ≠ "" then ("[[" ++ new_target ++ "|" ++ localized ++ "]]").data
        else ("[[" ++ new_target ++ "]]").data
      | none => ("[[" ++ new_target ++ "]]").data
    else
      let display1 :=
        match implicit_display_by_target.lookup base_page with
        | some localized =>
          if localized ≠ "" ∧ (display0 = page ∨ display0 = base_page ∨ display0 = target)
          then localized else display0
        | none => display0
      let display2 :=
        if display1 = target ∨ display1 = new_target
        then strip_known_lang_suffix display1 known_langs else display1
      ("[[" ++ new_target ++ "|" ++ display2 ++ "]]").data

/-- `_rewrite_internal_links_to_lang_with_source` (translate_page.py). -/
def rewrite_internal_links_to_lang_with_source (text lang : String)
    (source_targets : List String) (implicit_display_by_target : List (String × String))
    (known_langs : List String) : String :=
  let kl := if known_langs.contains lang then known_langs else known_langs ++ [lang]
  String.mk (linkSub (rewriteInternalLinkRepl lang source_targets implicit_display_by_target kl)
    (text.data.length + 1) text.data)

/-! ## Placeholder-loss handling -/

/-- Python's substring test `sub in text`. -/
def listIsInfixOf (sub : List Char) : List Char → Bool
  | [] => sub.isEmpty
  | c :: rest => sub.isPrefixOf (c :: rest) || listIsInfixOf sub rest

def isDigitChar (c : Char) : Bool := '0' ≤ c && c ≤ '9'

/-- `UNRESOLVED_PLACEHOLDER_RE = __PH\d+__|__LINK\d+__`. -/
def tryUnresolvedPlaceholder (l : List Char) : Option (List Char × List Char) :=
  let tryPat := fun (pre : String) =>
    match litPrefixMatch pre.data l with
    | none => none
    | some (m0, r0) =>
      let ds := r0.takeWhile isDigitChar
      let r1 := r0.dropWhile isDigitChar
      if ds.isEmpty then none
      else
        match litPrefixMatch "__".data r1 with
        | some (m2, r2) => some (m0 ++ ds ++ m2, r2)
        | none => none
  match tryPat "__PH" with
  | some v => some v
  | none => tryPat "__LINK"

/-- `re.sub(pattern, "", text)`: delete every match. -/
def subDeleteAll (scan : List Char → Option (List Char × List Char)) :
    Nat → List Char → List Char
  | 0, l => l
  | _ + 1, [] => []
  | fuel + 1, c :: rest =>
    match scan (c :: rest) with
    | some (_, after) => subDeleteAll scan fuel after
    | none => c :: subDeleteAll scan fuel rest

/-- `_strip_unresolved_placeholders` (translate_page.py lines 406–407). -/
def strip_unresolved_placeholders (text : String) : String :=
  String.mk (subDeleteAll tryUnresolvedPlaceholder (text.data.length + 1) text.data)

/-- `_missing_required_tokens` (translate_page.py lines 472–477). -/
def missing_required_tokens (text : String) (required : List String) : List String :=
  required.filter (fun t => !(listIsInfixOf t.data text.data))

/-- The link-token-loss handling of `main` (translate_page.py lines
1706–1730): if the provider output lost a required link token the segment is
retried once, with all links fully opaque (`protect_wikitext(seg.text,
protect_links=True)`); without an engine this is a fatal error.  The provider
output of the single fallback call enters as `fallbackOut`; the fallback
result is accepted without any further token check. -/
def linkTokenRetry (engineAvailable : Bool) (segText : String)
    (origPlaceholders : List (String × String)) (trText : String)
    (required : List String) (fallbackOut : String) :
    Except String (String × List (String × String)) :=
  let missing := missing_required_tokens trText required
  if missing.isEmpty then .ok (trText, origPlaceholders)
  else if !engineAvailable then .error "link placeholder loss in segment"
  else .ok (fallbackOut, (protect_wikitext segText true).placeholders)

/-- The token-safety pass after `restore_wikitext` (translate_page.py lines
1734–1736): re-substitute any placeholder key still present. -/
def restore_safety_pass (text : String) (phs : List (String × String)) : String :=
  String.mk (phs.foldl
    (fun acc kv =>
      if listIsInfixOf kv.1.data acc then listReplaceAll kv.1.data kv.2.data (acc.length + 1) acc
      else acc)
    text.data)

/-! ## The verified write protocol -/

/-- One read-back verification: the read text (or `none` for a read
exception) must equal the intended text under `_normalized_text_equivalent`. -/
def verifyReadback (nfc : List Char → List Char) (intended : String)
    (readback : Option String) : Bool :=
  match readback with
  | some v => normalized_text_equivalent nfc v == normalized_text_equivalent nfc intended
  | none => false

/-- The verified-write loop of `main` (translate_page.py lines 1939–1999):
`for attempt in range(2)` — write, read back, compare normalized; break on
success; after the loop `if not unit_saved: raise RuntimeError`.  The result
is the number of write attempts performed on success. -/
def verifiedWrite (nfc : List Char → List Char) (intended : String)
    (readback1 readback2 : Option String) : Except String Nat :=
  if verifyReadback nfc intended readback1 then .ok 1
  else if verifyReadback nfc intended readback2 then .ok 2
  else .error "failed to verify persisted unit edit"

/-! ## Status template machinery -/

/-- Case-sensitive lazy `.*?PAT` (DOTALL). -/
def lazyUpToLit (pat : List Char) : Nat → List Char → Option (List Char × List Char)
  | 0, _ => none
  | _ + 1, [] => none
  | fuel + 1, l =>
    match litPrefixMatch pat l with
    | some (m, r) => some (m, r)
    | none =>
      match l with
      | [] => none
      | c :: cs =>
        match lazyUpToLit pat fuel cs with
        | some (m, r) => some (c :: m, r)
        | none => none

/-- `TRANSLATION_STATUS_TEMPLATE_RE` without the trailing `\s*`:
`\{\{\s*Translation_status\b[^{}]*\}\}` (IGNORECASE). -/
def tryStatusTemplateCore (l : List Char) : Option (List Char × List Char) :=
  match litPrefixMatch openBraces l with
  | none => none
  | some (m0, r0) =>
    let ws := r0.takeWhile pyIsSpace
    let r1 := r0.dropWhile pyIsSpace
    match ciPrefixMatch "translation_status".data r1 with
    | none => none
    | some (m1, r2) =>
      if wordBoundary r2 then
        let body := r2.takeWhile (fun c => c != '\x7b' && c != '\x7d')
        let r3 := r2.dropWhile (fun c => c != '\x7b' && c != '\x7d')
        match litPrefixMatch closeBraces r3 with
        | none => none
        | some (m2, r4) => some (m0 ++ ws ++ m1 ++ body ++ m2, r4)
      else none

/-- `TRANSLATION_STATUS_TEMPLATE_RE = \{\{\s*Translation_status\b[^{}]*\}\}\s*`
(IGNORECASE). -/
def tryStatusTemplate (l : List Char) : Option (List Char × List Char) :=
  match tryStatusTemplateCore l with
  | none => none
  | some (m, r) =>
    let tws := r.takeWhile pyIsSpace
    some (m ++ tws, r.dropWhile pyIsSpace)

/-- `DISCLAIMER_TABLE_RE = \{\|\s*class="translation-disclaimer".*?\|\}`
(DOTALL, case-sensitive). -/
def tryDisclaimerTable (l : List Char) : Option (List Char × List Char) :=
  match litPrefixMatch ['\x7b', '|'] l with
  | none => none
  | some (m0, r0) =>
    let ws := r0.takeWhile pyIsSpace
    let r1 := r0.dropWhile pyIsSpace
    match litPrefixMatch "class=\"translation-disclaimer\"".data r1 with
    | none => none
    | some (m1, r2) =>
      match lazyUpToLit ['|', '\x7d'] (r2.length + 1) r2 with
      | some (body, r3) => some (m0 ++ ws ++ m1 ++ body, r3)
      | none => none

/-- `_remove_disclaimer_tables` (translate_page.py lines 558–559). -/
def remove_disclaimer_tables (text : String) : String :=
  pyStrip (String.mk (subDeleteAll tryDisclaimerTable (text.data.length + 1) text.data))

/-- A `key=value` part of `_build_status_template`, kept only when the value
is a non-empty (truthy) string. -/
def optParamStr (name : String) (v : Option String) : List String :=
  match v with
  | some s => if s ≠ "" then [name ++ "=" ++ s] else []
  | none => []

/-- `_build_status_template` (translate_page.py lines 577–593). -/
def build_status_template (status : String)
    (source_rev_at_translation reviewed_at reviewed_by outdated_source_rev : Option String) :
    String :=
  let parts := ["status=" ++ status]
    ++ optParamStr "source_rev_at_translation" source_rev_at_translation
    ++ optParamStr "reviewed_at" reviewed_at
    ++ optParamStr "reviewed_by" reviewed_by
    ++ optParamStr "outdated_source_rev" outdated_source_rev
  "\x7b\x7bTranslation_status|" ++ String.intercalate "|" parts ++ "\x7d\x7d"

/-! ## `_normalize_leading_status_directives` -/

/-- `\{\{DISPLAYTITLE:[^}]+\}\}` (IGNORECASE variant). -/
def tryDisplaytitleCi (l : List Char) : Option (List Char × List Char) :=
  match litPrefixMatch openBraces l with
  | none => none
  | some (m0, r0) =>
    match ciPrefixMatch "displaytitle:".data r0 with
    | none => none
    | some (m1, r1) =>
      let body := r1.takeWhile (· != '\x7d')
      let r2 := r1.dropWhile (· != '\x7d')
      if body.isEmpty then none
      else
        match litPrefixMatch closeBraces r2 with
        | some (m2, r3) => some (m0 ++ m1 ++ body ++ m2, r3)
        | none => none

/-- `\{\{DISPLAYTITLE:[^}]+\}\}` (case-sensitive variant, as used by
`_normalize_leading_div`). -/
def tryDisplaytitleCs (l : List Char) : Option (List Char × List Char) :=
  match litPrefixMatch ("\x7b\x7bDISPLAYTITLE:".data) l with
  | none => none
  | some (m0, r0) =>
    let body := r0.takeWhile (· != '\x7d')
    let r1 := r0.dropWhile (· != '\x7d')
    if body.isEmpty then none
    else
      match litPrefixMatch closeBraces r1 with
      | some (m2, r2) => some (m0 ++ body ++ m2, r2)
      | none => none

/-- `__NOTOC__`, case-insensitive. -/
def tryNotocCi (l : List Char) : Option (List Char × List Char) :=
  ciPrefixMatch "__notoc__".data l

/-- `\[\[File:[^\]]+\]\]` (IGNORECASE). -/
def tryFileCi (l : List Char) : Option (List Char × List Char) :=
  match litPrefixMatch "[[".data l with
  | none => none
  | some (m0, r0) =>
    match ciPrefixMatch "file:".data r0 with
    | none => none
    | some (m1, r1) =>
      let body := r1.takeWhile (· != ']')
      let r2 := r1.dropWhile (· != ']')
      if body.isEmpty then none
      else
        match litPrefixMatch "]]".data r2 with
        | some (m2, r3) => some (m0 ++ m1 ++ body ++ m2, r3)
        | none => none

/-- `\s*\n+\s*` followed by a non-whitespace token: the maximal whitespace
run, provided it contains a newline. -/
def tryGapNL (l : List Char) : Option (List Char × List Char) :=
  let ws := l.takeWhile pyIsSpace
  if ws.contains LF then some (ws, l.dropWhile pyIsSpace) else none

/-- `re.sub(pattern, repl, text, count=1)` for a scanner that returns the
replacement text and the rest. -/
def subFirst (scan : List Char → Option (List Char × List Char)) :
    Nat → List Char → List Char
  | 0, l => l
  | _ + 1, [] => []
  | fuel + 1, c :: rest =>
    match scan (c :: rest) with
    | some (repl, after) => repl ++ after
    | none => c :: subFirst scan fuel rest

/-- Pattern 1: `(status)\s*\n+\s*(displaytitle)` → `\1\2`. -/
def scanJoinStatusDisplay (l : List Char) : Option (List Char × List Char) :=
  match tryStatusTemplateCore l with
  | none => none
  | some (g1, r0) =>
    match tryGapNL r0 with
    | none => none
    | some (_, r1) =>
      match tryDisplaytitleCi r1 with
      | some (g2, r2) => some (g1 ++ g2, r2)
      | none => none

/-- Pattern 2: `(displaytitle)\s*\n+\s*(__NOTOC__)` → `\1__NOTOC__`. -/
def scanJoinDisplayNotoc (l : List Char) : Option (List Char × List Char) :=
  match tryDisplaytitleCi l with
  | none => none
  | some (g1, r0) =>
    match tryGapNL r0 with
    | none => none
    | some (_, r1) =>
      match tryNotocCi r1 with
      | some (_, r2) => some (g1 ++ "__NOTOC__".data, r2)
      | none => none

/-- Pattern 3: `(__NOTOC__)\s*\n+\s*(filelink)` → `\1\2`. -/
def scanJoinNotocFile (l : List Char) : Option (List Char × List Char) :=
  match tryNotocCi l with
  | none => none
  | some (g1, r0) =>
    match tryGapNL r0 with
    | none => none
    | some (_, r1) =>
      match tryFileCi r1 with
      | some (g2, r2) => some (g1 ++ g2, r2)
      | none => none

/-- Pattern 4: `(__NOTOC__)\s+(?=\S)` → `\1`. -/
def scanNotocTightenWs (l : List Char) : Option (List Char × List Char) :=
  match tryNotocCi l with
  | none => none
  | some (g1, r0) =>
    let ws := r0.takeWhile pyIsSpace
    let r1 := r0.dropWhile pyIsSpace
    if ws.isEmpty then none
    else
      match r1 with
      | [] => none
      | _ :: _ => some (g1, r1)

/-- Backtracking split of the tail `\s*\n{2,}`: the largest prefix `p` of the
whitespace run at which two consecutive newlines start. -/
def largestDoubleLF (w : List Char) : Option Nat :=
  (List.range w.length).reverse.find? fun p =>
    (w.get? p == some LF) && (w.get? (p + 1) == some LF)

/-- Pattern 5 (anchored): `^((status)?(displaytitle)(__NOTOC__)?(file)?)\s*\n{2,}`
→ `\1\n`; returns the rewritten text when the pattern matches at position 0. -/
def matchLeadingSpacerLine (l : List Char) : Option (List Char) :=
  let (g0, r0) :=
    match tryStatusTemplateCore l with
    | some (g, r) => (g, r)
    | none => (([] : List Char), l)
  match tryDisplaytitleCi r0 with
  | none => none
  | some (g1, r1) =>
    let (g2, r2) :=
      match tryNotocCi r1 with
      | some (g, r) => (g, r)
      | none => (([] : List Char), r1)
    let (g3, r3) :=
      match tryFileCi r2 with
      | some (g, r) => (g, r)
      | none => (([] : List Char), r2)
    let w := r3.takeWhile pyIsSpace
    let r4 := r3.dropWhile pyIsSpace
    match largestDoubleLF w with
    | none => none
    | some p =>
      let run := ((w.drop p).takeWhile (· == LF)).length
      some (g0 ++ g1 ++ g2 ++ g3 ++ [LF] ++ w.drop (p + run) ++ r4)

/-- `_normalize_leading_status_directives` (translate_page.py lines
1038–1077): four `count=1` joins plus the anchored spacer-line removal. -/
def normalize_leading_status_directives (text : String) : String :=
  let t1 := subFirst scanJoinStatusDisplay (text.data.length + 1) text.data
  let t2 := subFirst scanJoinDisplayNotoc (t1.length + 1) t1
  let t3 := subFirst scanJoinNotocFile (t2.length + 1) t2
  let t4 := subFirst scanNotocTightenWs (t3.length + 1) t3
  let t5 :=
    match matchLeadingSpacerLine t4 with
    | some replaced => replaced
    | none => t4
  String.mk t5

/-! ## `_normalize_leading_div` -/

/-- `(__NOTOC__)\s*\n+\s*(<div\b)` → `\1\2` (case-sensitive, count=1). -/
def scanNotocDiv (l : List Char) : Option (List Char × List Char) :=
  match litPrefixMatch "__NOTOC__".data l with
  | none => none
  | some (g1, r0) =>
    match tryGapNL r0 with
    | none => none
    | some (_, r1) =>
      match litPrefixMatch "<div".data r1 with
      | some (g2, r2) => if wordBoundary r2 then some (g1 ++ g2, r2) else none
      | none => none

/-- `(displaytitle)\s*\n+\s*(__NOTOC__)\s*\n+\s*(<div\b)` → `\1__NOTOC__\3`
(case-sensitive, count=1). -/
def scanDisplayNotocDiv (l : List Char) : Option (List Char × List Char) :=
  match tryDisplaytitleCs l with
  | none => none
  | some (g1, r0) =>
    match tryGapNL r0 with
    | none => none
    | some (_, r1) =>
      match litPrefixMatch "__NOTOC__".data r1 with
      | none => none
      | some (_, r2) =>
        match tryGapNL r2 with
        | none => none
        | some (_, r3) =>
          match litPrefixMatch "<div".data r3 with
          | some (g3, r4) =>
            if wordBoundary r4 then some (g1 ++ "__NOTOC__".data ++ g3, r4) else none
          | none => none

/-- `_normalize_leading_div` (translate_page.py lines 1031–1035). -/
def normalize_leading_div (text : String) : String :=
  let t1 := subFirst scanNotocDiv (text.data.length + 1) text.data
  let t2 := subFirst scanDisplayNotocDiv (t1.length + 1) t1
  String.mk t2

/-! ## `_compact_leading_metadata_preamble` -/

def isLineBoundary (c : Char) : Bool :=
  c == '\n' || c == '\r' || c == '\x0b' || c == '\x0c' ||
  c == '\x1c' || c == '\x1d' || c == '\x1e' || c == '\x85' || c == '\u2028' || c == '\u2029'

/-- Python `str.splitlines()` (a `\r\n` pair counts as one boundary). -/
def pySplitlines : Nat → List Char → List (List Char)
  | _, [] => []
  | 0, l => [l]
  | fuel + 1, l =>
    let line := l.takeWhile (fun c => !isLineBoundary c)
    let rest := l.dropWhile (fun c => !isLineBoundary c)
    match rest with
    | [] => [line]
    | b :: r2 =>
      if b = '\r' ∧ r2.head? = some '\n' then line :: pySplitlines fuel r2.tail
      else line :: pySplitlines fuel r2

/-- `"\n".join(lines)`. -/
def joinLF (lines : List (List Char)) : List Char :=
  match lines with
  | [] => []
  | l :: ls => l ++ (ls.flatMap fun x => LF :: x)

/-- Candidates for one `LEADING_META_TOKEN_RE` token at the head of the
input, in the regex engine's preference order (template, magic word, file
link, comment; within the magic word longest capture first; within the lazy
comment shortest body first). -/
def tmplTokenCandidates (l : List Char) : List (List Char × List Char) :=
  match litPrefixMatch openBraces l with
  | none => []
  | some (m0, r0) =>
    let body := r0.takeWhile (fun c => c != '\x7b' && c != '\x7d' && c != '\n')
    let r1 := r0.dropWhile (fun c => c != '\x7b' && c != '\x7d' && c != '\n')
    if body.isEmpty then []
    else
      match litPrefixMatch closeBraces r1 with
      | some (m2, r2) => [(m0 ++ body ++ m2, r2)]
      | none => []

def magicTokenCandidates (l : List Char) : List (List Char × List Char) :=
  match litPrefixMatch "__".data l with
  | none => []
  | some (m0, r0) =>
    let run := r0.takeWhile isMagicClassChar
    let rest := r0.dropWhile isMagicClassChar
    (List.range run.length).reverse.filterMap fun k =>
      if 1 ≤ k ∧ k + 1 < run.length ∧ run.get? k = some '_' ∧ run.get? (k + 1) = some '_'
      then some (m0 ++ run.take k ++ ['_', '_'], run.drop (k + 2) ++ rest)
      else none

def fileTokenCandidates (l : List Char) : List (List Char × List Char) :=
  match tryFileLinkFull l with
  | some v => [v]
  | none => []

def commentEnds : Nat → List Char → List Char → List Char → List (List Char × List Char)
  | 0, _, _, _ => []
  | fuel + 1, pre, bodyRev, r =>
    let here :=
      match litPrefixMatch "-->".data r with
      | some (m, rest) => [(pre ++ bodyRev.reverse ++ m, rest)]
      | none => []
    match r with
    | [] => here
    | c :: cs => here ++ commentEnds fuel pre (c :: bodyRev) cs

def commentTokenCandidates (l : List Char) : List (List Char × List Char) :=
  match litPrefixMatch "<!--".data l with
  | none => []
  | some (m0, r0) => commentEnds (r0.length + 1) m0 [] r0

def metaTokenCandidates (l : List Char) : List (List Char × List Char) :=
  tmplTokenCandidates l ++ magicTokenCandidates l ++
  fileTokenCandidates l ++ commentTokenCandidates l

/-- Backtracking `fullmatch` of `(token)*` against the rest of a line. -/
def metaTokensConsume : Nat → List Char → Bool
  | _, [] => true
  | 0, _ => false
  | fuel + 1, l =>
    (metaTokenCandidates l).any fun cand => metaTokensConsume fuel cand.2

/-- `LEADING_META_LINE_RE.fullmatch(line)`: one or more leading-metadata
tokens covering the whole line. -/
def leadingMetaLineMatch (l : List Char) : Bool :=
  !l.isEmpty && metaTokensConsume (l.length + 1) l

/-- The preamble-collection loop of `_compact_leading_metadata_preamble`:
skip blank lines, collect stripped full-token lines, stop at the first
non-blank non-token line. -/
def collectPreamble : List (List Char) → List (List Char) × List (List Char)
  | [] => ([], [])
  | line :: rest =>
    let stripped := pyStripWith pyIsSpace line
    if stripped.isEmpty then collectPreamble rest
    else if leadingMetaLineMatch stripped then
      let next := collectPreamble rest
      (stripped :: next.1, next.2)
    else ([], line :: rest)

/-- `_compact_leading_metadata_preamble` (translate_page.py lines 1080–1111):
split into lines, collect the preamble (skipping blank lines), then glue the
stripped directive lines to the body with no separator, the body lstripped of
spaces and tabs. -/
def compact_leading_metadata_preamble (text : String) : String :=
  if (collectPreamble (pySplitlines (text.data.length + 1) text.data)).1.isEmpty then
    String.mk (text.data.dropWhile (· == LF))
  else
    String.mk ((collectPreamble (pySplitlines (text.data.length + 1) text.data)).1.flatten ++
      (joinLF ((collectPreamble (pySplitlines (text.data.length + 1) text.data)).2.dropWhile
        (fun ln => (pyStripWith pyIsSpace ln).isEmpty))).dropWhile
        (fun c => c == ' ' || c == '\t'))

/-- `_upsert_status_template` (translate_page.py lines 596–619). -/
def upsert_status_template (text status : String)
    (source_rev_at_translation reviewed_at reviewed_by outdated_source_rev : Option String) :
    String :=
  let base := String.mk
    (pyLstripWith pyIsSpace (subDeleteAll tryStatusTemplate (text.data.length + 1) text.data))
  let tpl := build_status_template status source_rev_at_translation reviewed_at
    reviewed_by outdated_source_rev
  let out0 := if base.startsWith "\x7b\x7bDISPLAYTITLE:" then tpl ++ base
              else tpl ++ "\n" ++ base
  let out1 := pyStrip out0
  let out2 := normalize_leading_status_directives out1
  let out3 := compact_leading_metadata_preamble out2
  normalize_leading_div out3

/-! ## Status metadata merge and the status gate -/

/-- The five `dr_*` keys the status sources can report; `none` = key absent
from the Python dict. -/
structure StatusMeta where
  dr_translation_status : Option String := none
  dr_source_rev_at_translation : Option String := none
  dr_reviewed_at : Option String := none
  dr_reviewed_by : Option String := none
  dr_outdated_source_rev : Option String := none
deriving Repr, DecidableEq

def emptyStatusMeta : StatusMeta := {}

/-- Python `{**base, **upd}` restricted to the five `dr_*` keys: a key
present in `upd` wins. -/
def metaOverride (base upd : StatusMeta) : StatusMeta where
  dr_translation_status := upd.dr_translation_status <|> base.dr_translation_status
  dr_source_rev_at_translation :=
    upd.dr_source_rev_at_translation <|> base.dr_source_rev_at_translation
  dr_reviewed_at := upd.dr_reviewed_at <|> base.dr_reviewed_at
  dr_reviewed_by := upd.dr_reviewed_by <|> base.dr_reviewed_by
  dr_outdated_source_rev := upd.dr_outdated_source_rev <|> base.dr_outdated_source_rev

/-- `_translation_status_meta_for_page` (translate_page.py lines 917–936).
`aiMeta` is the (already field-mapped) result of
`_translation_status_from_ai_info(client.get_ai_translation_info(...))`,
`propsMeta` of `_translation_status_from_props(client.get_page_props(...))`,
`unit1Meta` of `_translation_status_from_unit1(...)`; a client read that
raises becomes `none` (the code falls back to the empty dict).  The merge is
`out = ai; out = {**props, **out}` and, only when no status key is present,
`out = {**out, **unit1}`. -/
def translation_status_meta_for_page (aiMeta propsMeta unit1Meta : Option StatusMeta) :
    StatusMeta :=
  let out0 := aiMeta.getD emptyStatusMeta
  let out1 := metaOverride (propsMeta.getD emptyStatusMeta) out0
  if out1.dr_translation_status.isSome then out1
  else metaOverride out1 (unit1Meta.getD emptyStatusMeta)

/-- `main` lines 1305–1307: strip/lower the merged status, default to
`machine`, and force unknown values to `machine`. -/
def effectiveStatus (meta : StatusMeta) : String :=
  let raw := pyLower (pyStrip (meta.dr_translation_status.getD ""))
  let status := if raw = "" then "machine" else raw
  if status = "machine" ∨ status = "reviewed" ∨ status = "outdated" then status
  else "machine"

/-- `_unit_title` (translate_page.py lines 44–45). -/
def unit_title (page_title unit_key lang : String) : String :=
  "Translations:" ++ page_title ++ "/" ++ unit_key ++ "/" ++ lang

structure SegmentWrite where
  title : String
  text : String
  summary : String
deriving Repr, DecidableEq

/-- A `client.set_ai_translation_status` call (page metadata, not a
translation-unit edit). -/
structure AiStatusUpdate where
  title : String
  status : String
  source_rev : Option String
  outdated_source_rev : Option String
deriving Repr, DecidableEq

structure GateOutcome where
  outcome : String
  segmentWrites : List SegmentWrite
  aiStatusUpdates : List AiStatusUpdate
deriving Repr, DecidableEq

/-- The status gate of `main` (translate_page.py lines 1302–1352).  Returns
`none` when the pipeline proceeds to translation (merged status `machine`),
otherwise the returned outcome together with every translation-unit edit and
every page-metadata status update the gate performs.  `unit1Text` is the read
of the metadata unit on the mark-outdated path (`none` = the read raised; the
surrounding `try` swallows it and no write happens); `metadata_key` is
`_first_source_unit_key(...)`. -/
def statusGate (norm_title lang metadata_key : String) (meta : StatusMeta)
    (source_rev : String) (unit1Text : Option String) (dry_run : Bool) :
    Option GateOutcome :=
  let status := effectiveStatus meta
  if status = "reviewed" ∨ status = "outdated" then
    let source_at_translation := pyStrip (meta.dr_source_rev_at_translation.getD "")
    if status = "reviewed" ∧ source_at_translation ≠ source_rev then
      let translated_page_title := norm_title ++ "/" ++ lang
      match unit1Text, dry_run with
      | some t, false =>
        some { outcome := "outdated",
               segmentWrites := [{
                 title := unit_title norm_title metadata_key lang,
                 text := upsert_status_template (remove_disclaimer_tables t)
                   "outdated" none none none none,
                 summary := "Bot: mark translation status as outdated (source changed)" }],
               aiStatusUpdates := [{
                 title := translated_page_title,
                 status := "outdated",
                 source_rev := some (if source_at_translation ≠ "" then source_at_translation
                                     else source_rev),
                 outdated_source_rev := some source_rev }] }
      | _, _ => some { outcome := "outdated", segmentWrites := [], aiStatusUpdates := [] }
    else some { outcome := "locked_" ++ status, segmentWrites := [], aiStatusUpdates := [] }
  else none

/-! ## Non-linguistic classification and the cache partition -/

def isAsciiLetter (c : Char) : Bool := ('A' ≤ c && c ≤ 'Z') || ('a' ≤ c && c ≤ 'z')

/-- `_is_nonlinguistic_segment` (translate_page.py lines 410–413):
`re.search(r"[A-Za-z]", text) is None`. -/
def is_nonlinguistic_segment (text : String) : Bool := !(text.data.any isAsciiLetter)

/-- A letter, following the specification's words ("no letters at all —
pure markup/numbers").  Modelled from the spec: a sound under-approximation
of Unicode's letter property (ASCII, Latin-1, Greek and Cyrillic letters),
used only to compare the spec's notion of "letter" with the code's
ASCII-only test. -/
def specIsLetter (c : Char) : Bool :=
  isAsciiLetter c ||
  (('À' ≤ c && c ≤ 'ÿ') && c != '×' && c != '÷') ||
  ('Α' ≤ c && c ≤ 'ω') ||
  ('Ѐ' ≤ c && c ≤ 'ӿ')

def specContainsLetter (text : String) : Bool := text.data.any specIsLetter

/-- `Segment` (segmenter.py): ordinal key and source markup. -/
structure Segment where
  key : String
  text : String
deriving Repr, DecidableEq

/-- `_has_template` (translate_page.py lines 437–443):
`\{\{\s*NAME\b` with spaces in the configured name matching `[ _]+`
(IGNORECASE); empty names never match. -/
def hasTemplateAt (nameParts : List (List Char)) (l : List Char) : Bool :=
  match litPrefixMatch openBraces l with
  | none => false
  | some (_, r0) =>
    let r1 := r0.dropWhile pyIsSpace
    let rec goParts : List (List Char) → List Char → Bool
      | [], r => wordBoundary r
      | p :: ps, r =>
        match ciPrefixMatch p r with
        | none => false
        | some (_, r2) =>
          match ps with
          | [] => wordBoundary r2
          | _ =>
            let sep := r2.takeWhile (fun c => c == ' ' || c == '_')
            if sep.isEmpty then false
            else goParts ps (r2.dropWhile (fun c => c == ' ' || c == '_'))
    goParts nameParts r1

def splitOnSpaceGo : Nat → List Char → List (List Char)
  | 0, _ => []
  | fuel + 1, l =>
    let rest := l.dropWhile (· == ' ')
    if rest.isEmpty then []
    else rest.takeWhile (· != ' ') :: splitOnSpaceGo fuel (rest.dropWhile (· != ' '))

/-- Split a template name on spaces (the effect of
`re.escape(name).replace(r"\ ", r"[ _]+")`). -/
def splitOnSpace (l : List Char) : List (List Char) := splitOnSpaceGo (l.length + 1) l

def has_template (text template_name : String) : Bool :=
  let nm := pyStripWith pyIsSpace template_name.data
  if nm.isEmpty then false
  else
    let parts := (splitOnSpace nm).map (fun w => w.map asciiLowerChar)
    let rec scanAll : Nat → List Char → Bool
      | 0, _ => false
      | _ + 1, [] => false
      | fuel + 1, c :: rest =>
        hasTemplateAt parts (c :: rest) || scanAll fuel rest
    scanAll (text.data.length + 1) text.data

/-- `_cache_compatible_with_source` (translate_page.py lines 446–456). -/
def cache_compatible_with_source (source cached : String)
    (strict_templates : List String) : Bool :=
  strict_templates.all fun name => has_template source name == has_template cached name

/-- The external lookups the cache partition performs, as parameters:
`chk` models `hashlib.sha256(...).hexdigest()`, `l1`/`l2` the two Postgres
lookups (`none` = miss or exception), `wiki` the `--rebuild-only`
translation-unit read. -/
structure CacheEnv where
  chk : String → String
  existingChecksums : List (String × String)
  l1 : String → String → Option String
  l2 : String → Option String
  wiki : String → Option String
  strictTemplates : List String
  disableCache : Bool
  noCache : Bool
  pgAvailable : Bool
  rebuildOnly : Bool

/-- The per-segment body of the cache-partition loop (`main`, translate_page.py
lines 1474–1539): non-linguistic segments are copied through unconditionally;
otherwise the L1 then L2 cache lookups run (guarded by the strict-template
compatibility check), then the rebuild-only wiki fallback.  The result is the
`cached_by_key` entry (text and provenance tag) or `none`. -/
def classifySegment (env : CacheEnv) (seg : Segment) : Option (String × String) :=
  let checksum := env.chk seg.text
  if is_nonlinguistic_segment seg.text then some (seg.text, "source-copy")
  else
    let dbHit : Option (String × String) :=
      if env.disableCache then none
      else if !env.noCache && env.pgAvailable then
        let l1Hit : Option (String × String) :=
          if env.existingChecksums.lookup seg.key = some checksum then
            match env.l1 seg.key checksum with
            | some cached =>
              if cached ≠ "" then
                if cache_compatible_with_source seg.text cached env.strictTemplates then
                  some (cached, "db-key")
                else none
              else none
            | none => none
          else none
        match l1Hit with
        | some v => some v
        | none =>
          match env.l2 checksum with
          | some cached =>
            if cached ≠ "" then
              if cache_compatible_with_source seg.text cached env.strictTemplates then
                some (cached, "db-checksum")
              else none
            else none
          | none => none
      else none
    match dbHit with
    | some v => some v
    | none =>
      if env.rebuildOnly then
        match env.wiki seg.key with
        | some unitText =>
          if pyStrip unitText ≠ "" then
            if cache_compatible_with_source seg.text unitText env.strictTemplates then
              some (unitText, "wiki")
            else none
          else none
        | none => none
      else none

/-- `cached_by_key` built over the (deduplicated) segment list. -/
def cachedByKey (env : CacheEnv) (segments : List Segment) : List (String × String) :=
  segments.foldl
    (fun acc seg =>
      match classifySegment env seg with
      | some v => acc ++ [(seg.key, v.1)]
      | none => acc)
    []

/-- `to_translate` (`main` line 1541). -/
def toTranslate (env : CacheEnv) (segments : List Segment) : List Segment :=
  segments.filter fun seg => ((cachedByKey env segments).lookup seg.key).isNone

/-- The segments whose protected text enters the translation-provider batch
call (`main` lines 1595–1621: segments already in `cached_by_key` are
skipped before `protected.append`). -/
def providerBatchKeys (env : CacheEnv) (segments : List Segment) : List String :=
  (segments.filter fun seg => ((cachedByKey env segments).lookup seg.key).isNone).map
    (fun seg => seg.key)

/-- `translated_by_key` for a cached segment (`main` lines 1698–1703): the
cached text verbatim. -/
def translatedInit (env : CacheEnv) (segments : List Segment) (key : String) :
    Option String :=
  (cachedByKey env segments).lookup key

/-- A minimal cache environment (no database, no rebuild mode) used to
instantiate the cache-partition theorems. -/
def sampleCacheEnv : CacheEnv where
  chk := fun _ => "h"
  existingChecksums := []
  l1 := fun _ _ => none
  l2 := fun _ => none
  wiki := fun _ => none
  strictTemplates := []
  disableCache := false
  noCache := false
  pgAvailable := false
  rebuildOnly := false

/-- Index of the first occurrence of `sub` in a character list. -/
def firstInfixPos (sub : List Char) : List Char → Option Nat
  | [] => if sub.isEmpty then some 0 else none
  | c :: rest =>
    if sub.isPrefixOf (c :: rest) then some 0
    else (firstInfixPos sub rest).map (· + 1)

/-! ### Helper lemmas about trailing newlines -/

theorem dropWhile_append_helper (p : Char → Bool) (xs ys : List Char) :
    (xs ++ ys).dropWhile p =
      if (xs.dropWhile p).isEmpty then ys.dropWhile p else xs.dropWhile p ++ ys := by
  induction xs with
  | nil => simp
  | cons a xs ih =>
    by_cases h : p a
    · simpa [List.dropWhile_cons, h] using ih
    · simp [List.dropWhile_cons, h]

theorem rstripLFList_cons (a : Char) (l : List Char) :
    rstripLFList (a :: l) =
      if rstripLFList l = [] ∧ a = LF then [] else a :: rstripLFList l := by
  unfold rstripLFList
  rw [List.reverse_cons, dropWhile_append_helper]
  rcases h : (l.reverse.dropWhile (· == LF)).isEmpty with hf | ht
  · have hne : (l.reverse.dropWhile (· == LF)).reverse ≠ [] := by
      intro hc
      rw [List.reverse_eq_nil_iff] at hc
      simp [hc] at h
    by_cases ha : a = LF
    · simp only [h, Bool.false_eq_true, if_false]
      rw [if_neg (by simp [hne]), List.reverse_append]
      simp
    · simp only [h, Bool.false_eq_true, if_false]
      rw [if_neg (by simp [hne]), List.reverse_append]
      simp
  · have hnil : l.reverse.dropWhile (· == LF) = [] := by
      simpa [List.isEmpty_iff] using h
    by_cases ha : a = LF
    · simp [h, hnil, List.dropWhile, ha]
    · have hba : (a == LF) = false := by simp [ha]
      simp [h, hnil, List.dropWhile, ha, hba]

theorem rstripLFList_not_endswith (l : List Char) : endswithLF (rstripLFList l) = false := by
  unfold endswithLF rstripLFList
  rcases h : l.reverse.dropWhile (· == LF) with _ | ⟨a, t⟩
  · simp
  · have : ¬ (a == LF) = true := by
      have := List.head?_dropWhile_not (· == LF) l.reverse
      rw [h] at this
      simpa using this
    rw [List.getLast?_reverse]
    simp_all

/-- Every list splits as its newline-stripped core plus trailing newlines. -/
theorem rstripLFList_decomp (l : List Char) :
    ∃ k, l = rstripLFList l ++ List.replicate k LF := by
  refine ⟨(l.reverse.takeWhile (· == LF)).length, ?_⟩
  have hsplit : l.reverse.takeWhile (· == LF) ++ l.reverse.dropWhile (· == LF) = l.reverse :=
    List.takeWhile_append_dropWhile (p := (· == LF)) (l := l.reverse)
  have hrep : l.reverse.takeWhile (· == LF) =
      List.replicate (l.reverse.takeWhile (· == LF)).length LF := by
    rw [List.eq_replicate_iff]
    refine ⟨rfl, fun b hb => ?_⟩
    have := List.mem_takeWhile_imp hb
    simpa using this
  calc l = l.reverse.reverse := by rw [List.reverse_reverse]
    _ = (l.reverse.takeWhile (· == LF) ++ l.reverse.dropWhile (· == LF)).reverse := by
          rw [hsplit]
    _ = rstripLFList l ++ (l.reverse.takeWhile (· == LF)).reverse := by
          rw [List.reverse_append]; rfl
    _ = rstripLFList l ++ List.replicate (l.reverse.takeWhile (· == LF)).length LF := by
          conv_lhs => rw [hrep]
          rw [List.reverse_replicate]

theorem rstripLFList_append_replicate (l : List Char) (k : Nat) :
    rstripLFList (l ++ List.replicate k LF) = rstripLFList l := by
  unfold rstripLFList
  rw [List.reverse_append, List.reverse_replicate, dropWhile_append_helper]
  have hdrop : (List.replicate k LF).dropWhile (· == LF) = [] := by
    induction k with
    | zero => simp
    | succ n ih => simp [List.replicate_succ, List.dropWhile, ih]
  simp [hdrop]

theorem pyRstrip_append_replicate (l : List Char) (k : Nat) :
    pyRstripWith pyIsSpace (l ++ List.replicate k LF) = pyRstripWith pyIsSpace l := by
  unfold pyRstripWith
  rw [List.reverse_append, List.reverse_replicate, dropWhile_append_helper]
  have hdrop : (List.replicate k LF).dropWhile pyIsSpace = [] := by
    induction k with
    | zero => simp
    | succ n ih =>
      simp [List.replicate_succ, List.dropWhile, pyIsSpace, LF, ih]
  simp [hdrop]

theorem pyStrip_append_replicate (l : List Char) (k : Nat) :
    pyStripWith pyIsSpace (l ++ List.replicate k LF) = pyStripWith pyIsSpace l := by
  unfold pyStripWith
  rw [pyRstrip_append_replicate]

theorem canon_rstrip_append_LF :
    ∀ (n : Nat) (s : List Char), s.length ≤ n →
      rstripLFList (newlineCanon (s ++ [LF])) = rstripLFList (newlineCanon s) := by
  intro n
  induction n with
  | zero =>
    intro s hs
    have : s = [] := List.length_eq_zero.mp (Nat.le_zero.mp hs)
    subst this
    simp [newlineCanon, replaceCRLF, replaceCR, rstripLFList, LF, CR]
  | succ m ih =>
    intro s hs
    match s with
    | [] => simp [newlineCanon, replaceCRLF, replaceCR, rstripLFList, LF, CR]
    | [c] =>
      by_cases hc : c = CR
      · subst hc
        show rstripLFList (newlineCanon (CR :: [LF])) = rstripLFList (newlineCanon [CR])
        have h1 : replaceCRLF (CR :: [LF]) = [LF] := by
          rw [replaceCRLF]
          simp [replaceCRLF]
        have h2 : replaceCRLF [CR] = [CR] := by rw [replaceCRLF]
        rw [newlineCanon, h1, newlineCanon, h2]
        simp [replaceCR, rstripLFList, List.dropWhile, LF, CR]
      · show rstripLFList (newlineCanon (c :: [LF])) = rstripLFList (newlineCanon [c])
        have h1 : replaceCRLF (c :: [LF]) = [c, LF] := by
          rw [replaceCRLF]
          simp [hc, replaceCRLF]
        have h2 : replaceCRLF [c] = [c] := by rw [replaceCRLF]
        rw [newlineCanon, h1, newlineCanon, h2]
        simp only [replaceCR, List.map_cons, List.map_nil, if_neg hc]
        have hLF : (if LF = CR then LF else LF) = LF := by simp
        rw [hLF]
        by_cases hl : c = LF
        · subst hl
          simp [rstripLFList, List.dropWhile]
        · have hbl : (c == LF) = false := by simp [hl]
          simp [rstripLFList, List.dropWhile, hbl]
    | c1 :: c2 :: rest =>
      have hlen2 : rest.length ≤ m := by
        simp only [List.length_cons] at hs
        omega
      have hlen1 : (c2 :: rest).length ≤ m := by
        simp only [List.length_cons] at hs ⊢
        omega
      by_cases hpair : c1 = CR ∧ c2 = LF
      · have hCRLF :
            replaceCRLF (c1 :: c2 :: (rest ++ [LF])) = LF :: replaceCRLF (rest ++ [LF]) := by
          rw [replaceCRLF]
          simp [hpair]
        have hCRLF' : replaceCRLF (c1 :: c2 :: rest) = LF :: replaceCRLF rest := by
          rw [replaceCRLF]
          simp [hpair]
        have hih := ih rest hlen2
        simp only [List.cons_append, hCRLF, hCRLF', newlineCanon, replaceCR, List.map_cons] at *
        have hLFstep : (if LF = CR then LF else LF) = LF := by simp [LF, CR]
        rw [hLFstep, rstripLFList_cons, rstripLFList_cons, hih]
      · have hCRLF :
            replaceCRLF (c1 :: c2 :: (rest ++ [LF])) = c1 :: replaceCRLF (c2 :: (rest ++ [LF])) := by
          rw [replaceCRLF]
          simp [hpair]
        have hCRLF' : replaceCRLF (c1 :: c2 :: rest) = c1 :: replaceCRLF (c2 :: rest) := by
          rw [replaceCRLF]
          simp [hpair]
        have hih := ih (c2 :: rest) hlen1
        simp only [List.cons_append] at hih ⊢
        simp only [hCRLF, hCRLF', newlineCanon, replaceCR, List.map_cons] at *
        rw [rstripLFList_cons, rstripLFList_cons, hih]

theorem canon_rstrip_append_replicate (s : List Char) (k : Nat) :
    rstripLFList (newlineCanon (s ++ List.replicate k LF)) = rstripLFList (newlineCanon s) := by
  induction k with
  | zero => simp
  | succ n ihn =>
    have : s ++ List.replicate (n + 1) LF = (s ++ List.replicate n LF) ++ [LF] := by
      rw [List.replicate_succ', List.append_assoc]
    rw [this, canon_rstrip_append_LF ((s ++ List.replicate n LF).length) _ (Nat.le_refl _), ihn]

theorem canon_rstrip_toggle (l : List Char) :
    rstripLFList (newlineCanon (toggleL l)) = rstripLFList (newlineCanon l) := by
  unfold toggleL
  by_cases hend : endswithLF l = true
  · rw [if_pos hend]
    obtain ⟨k, hk⟩ := rstripLFList_decomp l
    conv_rhs => rw [hk]
    rw [canon_rstrip_append_replicate]
  · rw [if_neg hend]
    exact canon_rstrip_append_LF l.length l (Nat.le_refl _)

theorem strip_nfc_canon_eq_of_rstrip_eq
    (nfc : List Char → List Char)
    (hnfc : ∀ l k, nfc (l ++ List.replicate k LF) = nfc l ++ List.replicate k LF)
    (x y : List Char)
    (h : rstripLFList (newlineCanon x) = rstripLFList (newlineCanon y)) :
    pyStripWith pyIsSpace (nfc (newlineCanon x)) = pyStripWith pyIsSpace (nfc (newlineCanon y)) := by
  obtain ⟨a, ha⟩ := rstripLFList_decomp (newlineCanon x)
  obtain ⟨b, hb⟩ := rstripLFList_decomp (newlineCanon y)
  calc pyStripWith pyIsSpace (nfc (newlineCanon x))
      = pyStripWith pyIsSpace (nfc (rstripLFList (newlineCanon x) ++ List.replicate a LF)) := by
        rw [← ha]
    _ = pyStripWith pyIsSpace (nfc (rstripLFList (newlineCanon x))) := by
        rw [hnfc, pyStrip_append_replicate]
    _ = pyStripWith pyIsSpace (nfc (rstripLFList (newlineCanon y))) := by rw [h]
    _ = pyStripWith pyIsSpace (nfc (rstripLFList (newlineCanon y) ++ List.replicate b LF)) := by
        rw [hnfc, pyStrip_append_replicate]
    _ = pyStripWith pyIsSpace (nfc (newlineCanon y)) := by rw [← hb]

theorem toggleL_ne (l : List Char) : toggleL l ≠ l := by
  unfold toggleL
  by_cases hend : endswithLF l = true
  · rw [if_pos hend]
    obtain ⟨k, hk⟩ := rstripLFList_decomp l
    rcases k with _ | k
    · exfalso
      simp only [List.replicate_zero, List.append_nil] at hk
      have := rstripLFList_not_endswith l
      rw [← hk] at this
      rw [hend] at this
      simp at this
    · intro hc
      have hlen : l.length = (rstripLFList l).length + (k + 1) := by
        conv_lhs => rw [hk]
        simp
      rw [hc] at hlen
      omega
  · rw [if_neg hend]
    intro hc
    have hlen : (l ++ [LF]).length = l.length := by rw [hc]
    simp at hlen

/-! ## Claim C10 -/

/-- C10: the content-neutral toggle edit used to clear the fuzzy flag changes
the stored text for every input (`_toggle_trailing_newline t ≠ t`) while
leaving the content unchanged under the write-verification equivalence
(`_normalized_text_equivalent`), for every NFC normalization `nfc` that
commutes with appending trailing newlines (true of Unicode NFC: `\n` is a
starter that composes with nothing); and when the text ends with a newline
the toggle removes all trailing newlines, not just one. -/
theorem C10_toggle_changes_text_preserves_normalized
    (nfc : List Char → List Char)
    (hnfc : ∀ l k, nfc (l ++ List.replicate k LF) = nfc l ++ List.replicate k LF)
    (t : String) :
    toggle_trailing_newline t ≠ t ∧
    normalized_text_equivalent nfc (toggle_trailing_newline t) =
      normalized_text_equivalent nfc t ∧
    (endswithLF t.data = true → toggle_trailing_newline t = String.mk (rstripLFList t.data)) := by
  refine ⟨?_, ?_, ?_⟩
  · intro hc
    exact toggleL_ne t.data (congrArg String.data hc)
  · unfold normalized_text_equivalent
    have hdata : (toggle_trailing_newline t).data = toggleL t.data := rfl
    rw [hdata]
    exact congrArg String.mk
      (strip_nfc_canon_eq_of_rstrip_eq nfc hnfc _ _ (canon_rstrip_toggle t.data))
  · intro h
    unfold toggle_trailing_newline toggleL
    rw [if_pos h]

/-- Witness for C10 at the concrete input `"abc\n\n"` with `nfc = id`. -/
theorem C10_toggle_witness :
    toggle_trailing_newline "abc\n\n" ≠ "abc\n\n" ∧
    normalized_text_equivalent id (toggle_trailing_newline "abc\n\n") =
      normalized_text_equivalent id "abc\n\n" ∧
    (endswithLF ("abc\n\n" : String).data = true →
      toggle_trailing_newline "abc\n\n" = String.mk (rstripLFList ("abc\n\n" : String).data)) :=
  C10_toggle_changes_text_preserves_normalized id (fun _ _ => rfl) "abc\n\n"

/-! ## Claim C4 -/

/-- C4 (code bug): markup protection does NOT round-trip identically.  At the
repository's own test input (tests/test_placeholders.py,
test_comment_placeholder_roundtrip), restoring the protected text returns
`"Intro __PH0__ Tail"` instead of the original: the key `__PH0__` produced for
the HTML comment is re-captured by the later magic-word pass
(`__([A-Z0-9_]+)__` matches `__PH0__`) as a second placeholder `__PH1__`, and
the single-pass insertion-order restore substitutes `__PH1__ → __PH0__` only
after the `__PH0__` pass has already run, leaving a bare `__PH0__` token. -/
theorem C4_protect_restore_roundtrip_fails :
    restore_wikitext (protect_wikitext "Intro <!--BOT_DISCLAIMER--> Tail" true).text
        (protect_wikitext "Intro <!--BOT_DISCLAIMER--> Tail" true).placeholders =
      "Intro __PH0__ Tail" ∧
    restore_wikitext (protect_wikitext "Intro <!--BOT_DISCLAIMER--> Tail" true).text
        (protect_wikitext "Intro <!--BOT_DISCLAIMER--> Tail" true).placeholders ≠
      "Intro <!--BOT_DISCLAIMER--> Tail" := by
  refine ⟨rfl, ?_⟩
  intro h
  have hlit : ("Intro __PH0__ Tail" : String) = "Intro <!--BOT_DISCLAIMER--> Tail" := by
    calc ("Intro __PH0__ Tail" : String)
        = restore_wikitext (protect_wikitext "Intro <!--BOT_DISCLAIMER--> Tail" true).text
            (protect_wikitext "Intro <!--BOT_DISCLAIMER--> Tail" true).placeholders := by rfl
      _ = "Intro <!--BOT_DISCLAIMER--> Tail" := h
  exact absurd hlit (by decide)

/-- The embedding reproduces the repository test that does pass: a protected
file link round-trips identically (tests/test_placeholders.py,
test_file_link_filename_preserved). -/
theorem protect_restore_file_link_roundtrip_ok :
    restore_wikitext
        (protect_wikitext "[[File:Arjan bouw.jpg|alt=Arjan Bouw|thumb|Photo: Luna Burger]]" true).text
        (protect_wikitext "[[File:Arjan bouw.jpg|alt=Arjan Bouw|thumb|Photo: Luna Burger]]" true).placeholders =
      "[[File:Arjan bouw.jpg|alt=Arjan Bouw|thumb|Photo: Luna Burger]]" := by
  rfl

/-! ## Claim C1 -/

/-- C1: when the merged translation status is `reviewed` and the recorded
`source_rev_at_translation` equals the document's current source revision,
the status gate performs no segment write and returns `locked_reviewed`;
likewise, when the merged status is `outdated`, no segment write occurs and
the outcome is `locked_outdated`. -/
theorem C1_status_lock_no_writes
    (norm_title lang metadata_key : String) (meta : StatusMeta)
    (source_rev : String) (unit1Text : Option String) (dry_run : Bool) :
    (effectiveStatus meta = "reviewed" →
      pyStrip (meta.dr_source_rev_at_translation.getD "") = source_rev →
      statusGate norm_title lang metadata_key meta source_rev unit1Text dry_run =
        some { outcome := "locked_reviewed", segmentWrites := [], aiStatusUpdates := [] }) ∧
    (effectiveStatus meta = "outdated" →
      statusGate norm_title lang metadata_key meta source_rev unit1Text dry_run =
        some { outcome := "locked_outdated", segmentWrites := [], aiStatusUpdates := [] }) := by
  constructor
  · intro hst heq
    unfold statusGate
    rw [hst]
    simp [heq]
  · intro hst
    unfold statusGate
    rw [hst]
    simp

/-- Witness for C1: a reviewed page whose recorded revision matches, and an
outdated page; both are locked without writes. -/
theorem C1_status_lock_witness :
    (effectiveStatus { dr_translation_status := some "reviewed",
                       dr_source_rev_at_translation := some "5" } = "reviewed" ∧
      statusGate "Doc" "sr" "1"
        { dr_translation_status := some "reviewed",
          dr_source_rev_at_translation := some "5" } "5" (some "Body") false =
        some { outcome := "locked_reviewed", segmentWrites := [], aiStatusUpdates := [] }) ∧
    (effectiveStatus { dr_translation_status := some "outdated" } = "outdated" ∧
      statusGate "Doc" "sr" "1"
        { dr_translation_status := some "outdated" } "7" (some "Body") false =
        some { outcome := "locked_outdated", segmentWrites := [], aiStatusUpdates := [] }) := by
  refine ⟨⟨by rfl, ?_⟩, ⟨by rfl, ?_⟩⟩
  · exact (C1_status_lock_no_writes "Doc" "sr" "1"
      { dr_translation_status := some "reviewed",
        dr_source_rev_at_translation := some "5" } "5" (some "Body") false).1 (by rfl) (by rfl)
  · exact (C1_status_lock_no_writes "Doc" "sr" "1"
      { dr_translation_status := some "outdated" } "7" (some "Body") false).2 (by rfl)

/-! ## Claim C2 -/

set_option maxRecDepth 8192 in
/-- C2 (counterexample): on the reviewed-with-changed-revision path the gate
writes exactly one segment, but the status template written into the metadata
segment is `{{Translation_status|status=outdated}}` with NO
`outdated_source_rev` parameter — the current source revision ("7") is
recorded only through the separate page-metadata status update, not in the
segment text, contradicting the claim as stated. -/
theorem C2_counterexample_no_outdated_rev_in_segment :
    statusGate "Doc" "sr" "1"
        { dr_translation_status := some "reviewed",
          dr_source_rev_at_translation := some "5" } "7" (some "Body") false =
      some { outcome := "outdated",
             segmentWrites := [{
               title := "Translations:Doc/1/sr",
               text := "\x7b\x7bTranslation_status|status=outdated\x7d\x7dBody",
               summary := "Bot: mark translation status as outdated (source changed)" }],
             aiStatusUpdates := [{
               title := "Doc/sr", status := "outdated",
               source_rev := some "5", outdated_source_rev := some "7" }] } ∧
    listIsInfixOf "outdated_source_rev".data
      "\x7b\x7bTranslation_status|status=outdated\x7d\x7dBody".data = false := by
  exact ⟨by rfl, by rfl⟩

/-- C2 (amended): when the merged status is `reviewed` and the recorded
revision differs from the current one, exactly one segment write occurs —
the metadata unit rewritten by `_upsert_status_template(..., status=
"outdated")`, whose template carries no `outdated_source_rev` parameter —
no other segment is touched, no translation is performed, the current source
revision is recorded as `outdated_source_rev` only in the separate
page-metadata status update, and the outcome is `outdated`. -/
theorem C2_reviewed_mismatch_single_write
    (norm_title lang metadata_key : String) (meta : StatusMeta)
    (source_rev : String) (t : String)
    (hst : effectiveStatus meta = "reviewed")
    (hne : pyStrip (meta.dr_source_rev_at_translation.getD "") ≠ source_rev) :
    statusGate norm_title lang metadata_key meta source_rev (some t) false =
      some { outcome := "outdated",
             segmentWrites := [{
               title := unit_title norm_title metadata_key lang,
               text := upsert_status_template (remove_disclaimer_tables t) "outdated"
                 none none none none,
               summary := "Bot: mark translation status as outdated (source changed)" }],
             aiStatusUpdates := [{
               title := norm_title ++ "/" ++ lang,
               status := "outdated",
               source_rev := some
                 (if pyStrip (meta.dr_source_rev_at_translation.getD "") ≠ ""
                  then pyStrip (meta.dr_source_rev_at_translation.getD "")
                  else source_rev),
               outdated_source_rev := some source_rev }] } := by
  unfold statusGate
  rw [hst]
  simp [hne]

/-- Witness for C2 at a concrete reviewed page whose revision changed. -/
theorem C2_reviewed_mismatch_witness :
    effectiveStatus { dr_translation_status := some "reviewed",
                      dr_source_rev_at_translation := some "10" } = "reviewed" ∧
    pyStrip ((({ dr_translation_status := some "reviewed",
                 dr_source_rev_at_translation := some "10" } : StatusMeta)
        ).dr_source_rev_at_translation.getD "") ≠ "11" ∧
    statusGate "Doc" "it" "2"
        { dr_translation_status := some "reviewed",
          dr_source_rev_at_translation := some "10" } "11" (some "Line") false =
      some { outcome := "outdated",
             segmentWrites := [{
               title := unit_title "Doc" "2" "it",
               text := upsert_status_template (remove_disclaimer_tables "Line") "outdated"
                 none none none none,
               summary := "Bot: mark translation status as outdated (source changed)" }],
             aiStatusUpdates := [{
               title := "Doc" ++ "/" ++ "it",
               status := "outdated",
               source_rev := some "10",
               outdated_source_rev := some "11" }] } := by
  refine ⟨by rfl, by decide, ?_⟩
  have h := C2_reviewed_mismatch_single_write "Doc" "it" "2"
    { dr_translation_status := some "reviewed",
      dr_source_rev_at_translation := some "10" } "11" "Line" (by rfl) (by decide)
  simpa using h

/-! ## Claim C3 -/

/-- C3 (counterexample): a field reported by both the first two sources is
overridden by the unit-1 template when neither of the first two reports a
status: with the AI-info and page-props sources both reporting
`source_rev_at_translation = "5"` (and no status), and the unit-1 template
reporting `status = reviewed, source_rev_at_translation = "7"`, the merged
revision is `"7"`, not `"5"` — so (a)-over-(b)-over-(c) does not hold
field-wise. -/
theorem C3_counterexample_unit1_overrides_fields :
    (translation_status_meta_for_page
        (some { dr_source_rev_at_translation := some "5" })
        (some { dr_source_rev_at_translation := some "5" })
        (some { dr_translation_status := some "reviewed",
                dr_source_rev_at_translation := some "7" })).dr_source_rev_at_translation =
      some "7" ∧ ("7" : String) ≠ "5" := by
  exact ⟨by rfl, by decide⟩

/-- C3 (amended): the merge gives the AI-translation-info source field-wise
precedence over the page-props source; the unit-1 status template is
consulted only when neither of the first two reports a status, and then its
present fields override both; for the status field itself this yields
first-two-then-template precedence, and with no status from any source the
effective status defaults to `machine`. -/
theorem C3_merge_precedence (ai props unit1 : StatusMeta) :
    (translation_status_meta_for_page (some ai) (some props)
        (some unit1)).dr_translation_status =
      ((ai.dr_translation_status <|> props.dr_translation_status) <|>
        unit1.dr_translation_status) ∧
    (translation_status_meta_for_page (some ai) (some props)
        (some unit1)).dr_source_rev_at_translation =
      (if (ai.dr_translation_status <|> props.dr_translation_status).isSome
       then ai.dr_source_rev_at_translation <|> props.dr_source_rev_at_translation
       else unit1.dr_source_rev_at_translation <|>
         (ai.dr_source_rev_at_translation <|> props.dr_source_rev_at_translation)) ∧
    (ai.dr_translation_status = none → props.dr_translation_status = none →
      unit1.dr_translation_status = none →
      effectiveStatus (translation_status_meta_for_page (some ai) (some props)
        (some unit1)) = "machine") := by
  unfold translation_status_meta_for_page metaOverride
  rcases hA : ai.dr_translation_status with _ | a
  · rcases hP : props.dr_translation_status with _ | p
    · simp [emptyStatusMeta, hA, hP, effectiveStatus]
      intro hU
      simp [hU, pyStrip, pyStripWith, pyLstripWith, pyRstripWith, pyLower]
    · simp [emptyStatusMeta, hA, hP]
  · simp [emptyStatusMeta, hA]

/-- Witness for C3 at concrete sources with no status anywhere: the merged
status defaults to `machine`. -/
theorem C3_merge_witness :
    (translation_status_meta_for_page (some { dr_reviewed_by := some "A" })
        (some { dr_source_rev_at_translation := some "3" })
        (some { dr_outdated_source_rev := some "4" })).dr_translation_status = none ∧
    effectiveStatus (translation_status_meta_for_page
        (some { dr_reviewed_by := some "A" })
        (some { dr_source_rev_at_translation := some "3" })
        (some { dr_outdated_source_rev := some "4" })) = "machine" := by
  refine ⟨by rfl, ?_⟩
  exact (C3_merge_precedence { dr_reviewed_by := some "A" }
    { dr_source_rev_at_translation := some "3" }
    { dr_outdated_source_rev := some "4" }).2.2 (by rfl) (by rfl) (by rfl)

/-! ## Claim C5 -/

/-- C5 (code bug): `_rewrite_internal_links_to_lang_with_source` stacks
language suffixes.  For the link `[[Foo/de]]` with target language `pt`,
known language `de` and `Foo` among the run's source targets, the rewritten
target is `Foo/de/pt` — the function computes the stripped base page but
appends the suffix to the unstripped name (`f"{page}/{lang}"`).  The sibling
`_tokenize_links` strips first (`f"{base_page}/{lang}"`), producing
`[[Foo/pt]]` for the same link, as the spec describes. -/
theorem C5_link_rewrite_stacks_suffixes :
    rewrite_internal_links_to_lang_with_source "[[Foo/de]]" "pt" ["Foo"] [] ["de"] =
      "[[Foo/de/pt]]" ∧
    (tokenize_links "[[Foo/de]]" "pt" ["de"]).placeholders =
      [("ZZZLINK0ZZZ", "[[Foo/pt]]")] := by
  exact ⟨by rfl, by rfl⟩

/-! ## Claim C6 -/

/-- C6 (counterexample): for the source segment `See [[Foo]] now` whose
required link token `ZZZLINK0ZZZ` is missing from the provider output, the
single fallback call is accepted without any further token check: even though
the fallback output `Vidi opet` also lacks the fallback placeholder
(`__PH0__`, carrying `[[Foo]]`), the retry step returns success, restoring
yields a text without the link, and `_strip_unresolved_placeholders` (applied
to every written segment) erases any leftover placeholder — the run does not
fail and the link is silently dropped. -/
theorem C6_counterexample_fallback_loss_not_fatal :
    missing_required_tokens "Vidi sada"
        (tokenize_links "See [[Foo]] now" "pt" []).required_tokens = ["ZZZLINK0ZZZ"] ∧
    linkTokenRetry true "See [[Foo]] now" [] "Vidi sada"
        (tokenize_links "See [[Foo]] now" "pt" []).required_tokens "Vidi opet" =
      .ok ("Vidi opet", [("__PH0__", "[[Foo]]")]) ∧
    missing_required_tokens "Vidi opet"
        (tokenize_links "See [[Foo]] now" "pt" []).required_tokens = ["ZZZLINK0ZZZ"] ∧
    strip_unresolved_placeholders
        (restore_wikitext "Vidi opet" [("__PH0__", "[[Foo]]")]) = "Vidi opet" ∧
    listIsInfixOf "Foo".data "Vidi opet".data = false := by
  exact ⟨by rfl, by rfl, by rfl, by rfl, by rfl⟩

/-- C6 (amended): when the provider output lost a required link token the
segment is retried exactly once with all links fully opaque
(`protect_wikitext(seg.text, protect_links=True)`), and the fallback output
is accepted unconditionally — no error is raised when the fallback also
lacks its placeholders (they are later stripped); an error is raised only
when no engine is available. -/
theorem C6_link_token_retry_behaviour (engineAvailable : Bool) (segText : String)
    (origPh : List (String × String)) (trText : String) (required : List String)
    (fallbackOut : String) :
    (missing_required_tokens trText required = [] →
      linkTokenRetry engineAvailable segText origPh trText required fallbackOut =
        .ok (trText, origPh)) ∧
    (missing_required_tokens trText required ≠ [] → engineAvailable = false →
      linkTokenRetry engineAvailable segText origPh trText required fallbackOut =
        .error "link placeholder loss in segment") ∧
    (missing_required_tokens trText required ≠ [] → engineAvailable = true →
      linkTokenRetry engineAvailable segText origPh trText required fallbackOut =
        .ok (fallbackOut, (protect_wikitext segText true).placeholders)) := by
  unfold linkTokenRetry
  refine ⟨fun h => ?_, fun h he => ?_, fun h he => ?_⟩
  · simp [h]
  · simp [List.isEmpty_iff, h, he]
  · simp [List.isEmpty_iff, h, he]

/-- Witness for C6 at the concrete segment of the counterexample setup but a
fallback output that keeps its placeholder. -/
theorem C6_link_token_retry_witness :
    missing_required_tokens "Vidi ZZZLINK9ZZZ" ["ZZZLINK0ZZZ"] ≠ [] ∧
    linkTokenRetry true "See [[Bar]] now" [] "Vidi ZZZLINK9ZZZ" ["ZZZLINK0ZZZ"]
        "Vidi __PH0__ sada" =
      .ok ("Vidi __PH0__ sada", (protect_wikitext "See [[Bar]] now" true).placeholders) := by
  refine ⟨by decide, ?_⟩
  exact (C6_link_token_retry_behaviour true "See [[Bar]] now" [] "Vidi ZZZLINK9ZZZ"
    ["ZZZLINK0ZZZ"] "Vidi __PH0__ sada").2.2 (by decide) rfl

/-! ## Claim C7 -/

/-- C7: the verified write protocol performs at most two write attempts per
segment, reading the segment back after each and comparing under the
normalized-text equivalence; a first mismatching read-back followed by a
matching second attempt is reported as success (with exactly two writes), and
a second mismatch raises an error — never a soft success or a skip. -/
theorem C7_verified_write_protocol (nfc : List Char → List Char)
    (intended : String) (rb1 rb2 : Option String) :
    (verifyReadback nfc intended rb1 = false → verifyReadback nfc intended rb2 = true →
      verifiedWrite nfc intended rb1 rb2 = .ok 2) ∧
    (verifyReadback nfc intended rb1 = false → verifyReadback nfc intended rb2 = false →
      verifiedWrite nfc intended rb1 rb2 = .error "failed to verify persisted unit edit") ∧
    (∀ n, verifiedWrite nfc intended rb1 rb2 = .ok n → n ≤ 2) := by
  unfold verifiedWrite
  refine ⟨fun h1 h2 => ?_, fun h1 h2 => ?_, fun n hn => ?_⟩
  · simp [h1, h2]
  · simp [h1, h2]
  · by_cases h1 : verifyReadback nfc intended rb1
    · simp [h1] at hn
      omega
    · by_cases h2 : verifyReadback nfc intended rb2
      · simp [h1, h2] at hn
        omega
      · simp [h1, h2] at hn

/-- Witness for C7: the store returns the wrong text on the first read-back
and the intended text on the second; the write is reported as a success with
exactly two attempts. -/
theorem C7_verified_write_witness :
    verifyReadback id "a" (some "b") = false ∧
    verifyReadback id "a" (some "a") = true ∧
    verifiedWrite id "a" (some "b") (some "a") = .ok 2 := by
  refine ⟨by rfl, by rfl, ?_⟩
  exact (C7_verified_write_protocol id "a" (some "b") (some "a")).1 (by rfl) (by rfl)

/-! ## Claim C8 -/

theorem cachedByKey_eq_filterMap (env : CacheEnv) (segments : List Segment) :
    cachedByKey env segments =
      segments.filterMap
        (fun seg => (classifySegment env seg).map fun v => (seg.key, v.1)) := by
  unfold cachedByKey
  suffices h : ∀ acc : List (String × String),
      segments.foldl
        (fun acc seg =>
          match classifySegment env seg with
          | some v => acc ++ [(seg.key, v.1)]
          | none => acc) acc =
        acc ++ segments.filterMap
          (fun seg => (classifySegment env seg).map fun v => (seg.key, v.1)) by
    simpa using h []
  induction segments with
  | nil => intro acc; simp
  | cons s rest ih =>
    intro acc
    rcases h : classifySegment env s with _ | v
    · simp only [List.foldl_cons, h, List.filterMap_cons]
      simpa [h] using ih acc
    · simp only [List.foldl_cons, h, List.filterMap_cons]
      rw [ih (acc ++ [(s.key, v.1)])]
      simp [h]

theorem lookup_filterMap_classify_none (env : CacheEnv) (key : String) :
    ∀ rest : List Segment, key ∉ rest.map Segment.key →
      (rest.filterMap
        (fun seg => (classifySegment env seg).map fun v => (seg.key, v.1))).lookup key =
        none := by
  intro rest
  induction rest with
  | nil => intro _; simp
  | cons r rs ih =>
    intro hnot
    have hne : key ≠ r.key := by
      intro hc
      exact hnot (by simp [hc])
    have hnot' : key ∉ rs.map Segment.key := by
      intro hc
      exact hnot (by simp [hc])
    have hbe : (key == r.key) = false := by simp [hne]
    rcases h : classifySegment env r with _ | v
    · simpa [List.filterMap_cons, h] using ih hnot'
    · simp [List.filterMap_cons, h, List.lookup, hbe, ih hnot']

theorem cachedByKey_lookup_of_mem (env : CacheEnv) (segments : List Segment)
    (seg : Segment) (hmem : seg ∈ segments)
    (hnodup : (segments.map Segment.key).Nodup) :
    (cachedByKey env segments).lookup seg.key =
      (classifySegment env seg).map Prod.fst := by
  rw [cachedByKey_eq_filterMap]
  induction segments with
  | nil => cases hmem
  | cons s rest ih =>
    have hnodup' : (rest.map Segment.key).Nodup := (List.nodup_cons.mp hnodup).2
    rcases List.mem_cons.mp hmem with heq | hmem'
    · subst heq
      have hnotin : seg.key ∉ rest.map Segment.key := (List.nodup_cons.mp hnodup).1
      rcases h : classifySegment env seg with _ | v
      · simpa [List.filterMap_cons, h] using
          lookup_filterMap_classify_none env seg.key rest hnotin
      · simp [List.filterMap_cons, h, List.lookup]
    · have hne : seg.key ≠ s.key := by
        have hkeymem : seg.key ∈ rest.map Segment.key := List.mem_map_of_mem _ hmem'
        intro hc
        exact (List.nodup_cons.mp hnodup).1 (hc ▸ hkeymem)
      have hbe : (seg.key == s.key) = false := by simp [hne]
      rcases h : classifySegment env s with _ | v
      · simpa [List.filterMap_cons, h] using ih hmem' hnodup'
      · simp only [List.filterMap_cons, h, Option.map_some', List.lookup, hbe]
        exact ih hmem' hnodup'

/-- Non-linguistic segments are classified by the first branch of the
partition loop, before any cache lookup. -/
theorem classifySegment_nonlinguistic (env : CacheEnv) (seg : Segment)
    (hnl : is_nonlinguistic_segment seg.text = true) :
    classifySegment env seg = some (seg.text, "source-copy") := by
  unfold classifySegment
  rw [hnl]
  simp

/-- C8 (amended): a segment is classified non-linguistic exactly when its
text contains no ASCII letters (the code's explicit proxy for prose, the
source language being English); every segment so classified is entered into
`cached_by_key` with its source text verbatim, is excluded from the
translation-provider batch call, and its `translated_by_key` entry is the
source text unchanged. -/
theorem C8_nonlinguistic_copy_through (env : CacheEnv) (segments : List Segment)
    (seg : Segment) (hmem : seg ∈ segments)
    (hnodup : (segments.map Segment.key).Nodup)
    (hnl : is_nonlinguistic_segment seg.text = true) :
    (cachedByKey env segments).lookup seg.key = some seg.text ∧
    seg.key ∉ providerBatchKeys env segments ∧
    translatedInit env segments seg.key = some seg.text ∧
    (∀ t : String, is_nonlinguistic_segment t = true ↔
      ∀ c ∈ t.data, isAsciiLetter c = false) := by
  have hlook : (cachedByKey env segments).lookup seg.key = some seg.text := by
    rw [cachedByKey_lookup_of_mem env segments seg hmem hnodup,
      classifySegment_nonlinguistic env seg hnl]
    rfl
  refine ⟨hlook, ?_, hlook, ?_⟩
  · intro hk
    unfold providerBatchKeys at hk
    obtain ⟨seg2, hseg2, hkey⟩ := List.mem_map.mp hk
    have hf := List.mem_filter.mp hseg2
    rw [hkey] at hf
    rw [hlook] at hf
    simp at hf
  · intro t
    unfold is_nonlinguistic_segment
    simp [List.any_eq_true]

/-- Witness for C8: a digits-only segment in a two-segment document is cached
as a verbatim copy and excluded from the provider batch. -/
theorem C8_nonlinguistic_witness :
    (⟨"1", "123"⟩ : Segment) ∈ [(⟨"1", "123"⟩ : Segment), ⟨"2", "abc"⟩] ∧
    ((([(⟨"1", "123"⟩ : Segment), ⟨"2", "abc"⟩]).map Segment.key).Nodup) ∧
    is_nonlinguistic_segment "123" = true ∧
    (cachedByKey sampleCacheEnv [⟨"1", "123"⟩, ⟨"2", "abc"⟩]).lookup "1" = some "123" ∧
    "1" ∉ providerBatchKeys sampleCacheEnv [⟨"1", "123"⟩, ⟨"2", "abc"⟩] := by
  refine ⟨by decide, by decide, by decide, ?_, ?_⟩
  · exact (C8_nonlinguistic_copy_through sampleCacheEnv
      [⟨"1", "123"⟩, ⟨"2", "abc"⟩] ⟨"1", "123"⟩ (by decide) (by decide) (by decide)).1
  · exact (C8_nonlinguistic_copy_through sampleCacheEnv
      [⟨"1", "123"⟩, ⟨"2", "abc"⟩] ⟨"1", "123"⟩ (by decide) (by decide) (by decide)).2.1

/-- C8 (counterexample): the segment `"Б"` consists of a single Cyrillic
letter — a letter in the specification's sense — yet the code classifies it
non-linguistic, because `_is_nonlinguistic_segment` only searches for ASCII
letters (`[A-Za-z]`). -/
theorem C8_counterexample_cyrillic_letter :
    is_nonlinguistic_segment "Б" = true ∧ specContainsLetter "Б" = true := by
  exact ⟨by decide, by decide⟩

/-! ## Claim C9 -/

theorem takeWhile_append_stop (p : Char → Bool) (xs : List Char) (y : Char) (t : List Char)
    (hxs : ∀ c ∈ xs, p c = true) (hy : p y = false) :
    (xs ++ y :: t).takeWhile p = xs := by
  induction xs with
  | nil => simp [List.takeWhile, hy]
  | cons a as ih =>
    have ha : p a = true := hxs a (by simp)
    simp only [List.cons_append, List.takeWhile, ha, List.append_eq]
    rw [ih (fun c hc => hxs c (by simp [hc]))]

theorem dropWhile_append_stop (p : Char → Bool) (xs : List Char) (y : Char) (t : List Char)
    (hxs : ∀ c ∈ xs, p c = true) (hy : p y = false) :
    (xs ++ y :: t).dropWhile p = y :: t := by
  induction xs with
  | nil => simp [List.dropWhile, hy]
  | cons a as ih =>
    have ha : p a = true := hxs a (by simp)
    simp only [List.cons_append, List.dropWhile, ha, List.append_eq]
    exact ih (fun c hc => hxs c (by simp [hc]))

theorem takeWhile_all (p : Char → Bool) (xs : List Char) (hxs : ∀ c ∈ xs, p c = true) :
    xs.takeWhile p = xs := by
  induction xs with
  | nil => simp
  | cons a as ih =>
    have ha : p a = true := hxs a (by simp)
    simp only [List.takeWhile, ha]
    rw [ih (fun c hc => hxs c (by simp [hc]))]

theorem dropWhile_all (p : Char → Bool) (xs : List Char) (hxs : ∀ c ∈ xs, p c = true) :
    xs.dropWhile p = [] := by
  induction xs with
  | nil => simp
  | cons a as ih =>
    have ha : p a = true := hxs a (by simp)
    simp only [List.dropWhile, ha]
    exact ih (fun c hc => hxs c (by simp [hc]))

theorem joinLF_cons_cons (l l2 : List Char) (ls : List (List Char)) :
    joinLF (l :: l2 :: ls) = l ++ LF :: joinLF (l2 :: ls) := by
  simp [joinLF, List.flatMap_cons]

theorem pySplitlines_cons_line (f : Nat) (l t : List Char)
    (hl : ∀ c ∈ l, isLineBoundary c = false) :
    pySplitlines (f + 1) (l ++ LF :: t) = l :: pySplitlines f t := by
  have htake : (l ++ LF :: t).takeWhile (fun c => !isLineBoundary c) = l :=
    takeWhile_append_stop _ l LF t (fun c hc => by simp [hl c hc]) (by simp [LF, isLineBoundary])
  have hdrop : (l ++ LF :: t).dropWhile (fun c => !isLineBoundary c) = LF :: t :=
    dropWhile_append_stop _ l LF t (fun c hc => by simp [hl c hc]) (by simp [LF, isLineBoundary])
  have hne : l ++ LF :: t ≠ [] := by simp
  rcases hshape : l ++ LF :: t with _ | ⟨c, cs⟩
  · exact absurd hshape hne
  · rw [← hshape]
    show pySplitlines (f + 1) (l ++ LF :: t) = l :: pySplitlines f t
    rw [hshape]
    have : pySplitlines (f + 1) (c :: cs) =
        (let line := (c :: cs).takeWhile (fun c => !isLineBoundary c)
         let rest := (c :: cs).dropWhile (fun c => !isLineBoundary c)
         match rest with
         | [] => [line]
         | b :: r2 =>
           if b = '\r' ∧ r2.head? = some '\n' then line :: pySplitlines f r2.tail
           else line :: pySplitlines f r2) := by
      rfl
    rw [this]
    rw [← hshape, htake, hdrop]
    have hCR : ¬(LF = '\r' ∧ t.head? = some '\n') := by
      intro hc
      exact absurd hc.1 (by decide)
    simp only [hCR, if_false]

theorem length_le_joinLF_length (lines : List (List Char)) :
    lines.length ≤ (joinLF lines).length + 1 := by
  induction lines with
  | nil => simp
  | cons l ls ih =>
    rcases ls with _ | ⟨l2, rest⟩
    · simp
    · rw [joinLF_cons_cons]
      simp only [List.length_cons, List.length_append] at *
      omega

theorem pySplitlines_joinLF :
    ∀ (lines : List (List Char)) (f : Nat),
      lines.length ≤ f →
      (∀ line ∈ lines, ∀ c ∈ line, isLineBoundary c = false) →
      lines.getLast? ≠ some [] →
      lines ≠ [] →
      pySplitlines f (joinLF lines) = lines := by
  intro lines
  induction lines with
  | nil => intro f _ _ _ hne; exact absurd rfl hne
  | cons l ls ih =>
    intro f hf hbound hlast _
    rcases ls with _ | ⟨l2, rest⟩
    · have hlne : l ≠ [] := by
        intro hc
        exact hlast (by simp [hc])
      have hl : ∀ c ∈ l, isLineBoundary c = false := hbound l (by simp)
      rcases f with _ | f'
      · simp at hf
      · rcases hsh : l with _ | ⟨c, cs⟩
        · exact absurd hsh hlne
        · rw [← hsh]
          show pySplitlines (f' + 1) (joinLF [l]) = [l]
          have hjoin : joinLF [l] = l := by simp [joinLF]
          rw [hjoin, hsh]
          have : pySplitlines (f' + 1) (c :: cs) =
              (let line := (c :: cs).takeWhile (fun c => !isLineBoundary c)
               let rest := (c :: cs).dropWhile (fun c => !isLineBoundary c)
               match rest with
               | [] => [line]
               | b :: r2 =>
                 if b = '\r' ∧ r2.head? = some '\n' then line :: pySplitlines f' r2.tail
                 else line :: pySplitlines f' r2) := rfl
          rw [this, ← hsh]
          rw [takeWhile_all _ l (fun c hc => by simp [hl c hc]),
            dropWhile_all _ l (fun c hc => by simp [hl c hc])]
    · rcases f with _ | f'
      · simp at hf
      · rw [joinLF_cons_cons,
          pySplitlines_cons_line f' l (joinLF (l2 :: rest)) (hbound l (by simp))]
        have : pySplitlines f' (joinLF (l2 :: rest)) = l2 :: rest := by
          refine ih f' ?_ ?_ ?_ (by simp)
          · simp at hf ⊢
            omega
          · intro line hline
            exact hbound line (by simp [hline])
          · simpa using hlast
        rw [this]

theorem collectPreamble_cons_eq (line : List Char) (rest : List (List Char)) :
    collectPreamble (line :: rest) =
      (if (pyStripWith pyIsSpace line).isEmpty then collectPreamble rest
       else if leadingMetaLineMatch (pyStripWith pyIsSpace line) then
         ((pyStripWith pyIsSpace line) :: (collectPreamble rest).1, (collectPreamble rest).2)
       else ([], line :: rest)) := rfl

theorem collectPreamble_blank_cons (b : List Char) (rest : List (List Char))
    (hb : pyStripWith pyIsSpace b = []) :
    collectPreamble (b :: rest) = collectPreamble rest := by
  rw [collectPreamble_cons_eq, hb]
  rfl

theorem collectPreamble_blanks (bs : List (List Char)) (rest : List (List Char))
    (h : ∀ b ∈ bs, pyStripWith pyIsSpace b = []) :
    collectPreamble (bs ++ rest) = collectPreamble rest := by
  induction bs with
  | nil => simp
  | cons b bs' ih =>
    rw [List.cons_append, collectPreamble_blank_cons b _ (h b (by simp))]
    exact ih (fun x hx => h x (by simp [hx]))

theorem collectPreamble_directive_cons (d : List Char) (rest : List (List Char))
    (hd : pyStripWith pyIsSpace d = d) (hne : d ≠ [])
    (hm : leadingMetaLineMatch d = true) :
    collectPreamble (d :: rest) =
      (d :: (collectPreamble rest).1, (collectPreamble rest).2) := by
  rw [collectPreamble_cons_eq, hd]
  have hie : d.isEmpty = false := by
    rcases d with _ | _
    · exact absurd rfl hne
    · rfl
  rw [hie]
  simp [hm]

theorem collectPreamble_stop (b : List Char) (rest : List (List Char))
    (hb : pyStripWith pyIsSpace b ≠ [])
    (hm : leadingMetaLineMatch (pyStripWith pyIsSpace b) = false) :
    collectPreamble (b :: rest) = ([], b :: rest) := by
  rw [collectPreamble_cons_eq]
  have hie : (pyStripWith pyIsSpace b).isEmpty = false := by
    rcases h : pyStripWith pyIsSpace b with _ | _
    · exact absurd h hb
    · rfl
  rw [hie]
  simp [hm]

theorem collectPreamble_structured :
    ∀ (ps : List (List (List Char) × List Char)) (r : List (List Char)),
      (∀ pr ∈ ps, (∀ b ∈ pr.1, pyStripWith pyIsSpace b = []) ∧
        pyStripWith pyIsSpace pr.2 = pr.2 ∧ pr.2 ≠ [] ∧
        leadingMetaLineMatch pr.2 = true) →
      (r = [] ∨ ∃ b0 rs, r = b0 :: rs ∧ pyStripWith pyIsSpace b0 ≠ [] ∧
        leadingMetaLineMatch (pyStripWith pyIsSpace b0) = false) →
      collectPreamble ((ps.flatMap fun pr => pr.1 ++ [pr.2]) ++ r) =
        (ps.map (·.2), r) := by
  intro ps
  induction ps with
  | nil =>
    intro r _ hr
    rcases hr with hnil | ⟨b0, rs, hsh, hb, hm⟩
    · subst hnil
      simp [collectPreamble]
    · subst hsh
      simpa using collectPreamble_stop b0 rs hb hm
  | cons pr ps' ih =>
    intro r hps hr
    have hpr := hps pr (by simp)
    rw [List.flatMap_cons, List.append_assoc, List.append_assoc]
    rw [collectPreamble_blanks pr.1 _ hpr.1]
    rw [List.singleton_append, collectPreamble_directive_cons pr.2 _ hpr.2.1 hpr.2.2.1 hpr.2.2.2]
    rw [ih r (fun x hx => hps x (by simp [hx])) hr]
    simp

/-- C9 (amended): the preamble compaction concatenates the leading directive
lines in their input order with zero blank lines between them and no blank
line or leading whitespace before the body that follows (general statement),
and in particular the claim's example — a blank line between the
display-title directive and the table-of-contents directive — compacts to
zero intervening blank lines; the fixed order status → display-title holds
by construction (the composer prepends them), but the toc directive and the
leading file reference keep their input order and are not reordered. -/
theorem C9_compact_preamble
    (ps : List (List (List Char) × List Char)) (b0 : List Char) (bs : List (List Char))
    (hne : ps ≠ [])
    (hps : ∀ pr ∈ ps,
      (∀ b ∈ pr.1, (∀ c ∈ b, isLineBoundary c = false) ∧ pyStripWith pyIsSpace b = []) ∧
      (∀ c ∈ pr.2, isLineBoundary c = false) ∧ pyStripWith pyIsSpace pr.2 = pr.2 ∧
      pr.2 ≠ [] ∧ leadingMetaLineMatch pr.2 = true)
    (hb0 : ∀ c ∈ b0, isLineBoundary c = false)
    (hb0s : pyStripWith pyIsSpace b0 ≠ [])
    (hb0m : leadingMetaLineMatch (pyStripWith pyIsSpace b0) = false)
    (hbs : ∀ b ∈ bs, ∀ c ∈ b, isLineBoundary c = false)
    (hlast : (b0 :: bs).getLast? ≠ some []) :
    compact_leading_metadata_preamble
        (String.mk (joinLF ((ps.flatMap fun pr => pr.1 ++ [pr.2]) ++ b0 :: bs))) =
      String.mk ((ps.map (·.2)).flatten ++
        (joinLF (b0 :: bs)).dropWhile (fun c => c == ' ' || c == '\t')) ∧
    compact_leading_metadata_preamble
        ("\x7b\x7bTranslation_status|status=machine\x7d\x7d\n\x7b\x7bDISPLAYTITLE:T\x7d\x7d\n\n__NOTOC__\n[[File:x.jpg]]\nBody") =
      "\x7b\x7bTranslation_status|status=machine\x7d\x7d\x7b\x7bDISPLAYTITLE:T\x7d\x7d__NOTOC__[[File:x.jpg]]Body" := by
  constructor
  · have hbound : ∀ line ∈ (ps.flatMap fun pr => pr.1 ++ [pr.2]) ++ b0 :: bs,
        ∀ c ∈ line, isLineBoundary c = false := by
      intro line hline
      rcases List.mem_append.mp hline with hfl | hrest
      · obtain ⟨pr, hpr, hin⟩ := List.mem_flatMap.mp hfl
        rcases List.mem_append.mp hin with hblank | hdir
        · exact ((hps pr hpr).1 line hblank).1
        · have : line = pr.2 := by simpa using hdir
          subst this
          exact (hps pr hpr).2.1
      · rcases List.mem_cons.mp hrest with h0 | hbs'
        · subst h0; exact hb0
        · exact hbs line hbs'
    have hLlast : ((ps.flatMap fun pr => pr.1 ++ [pr.2]) ++ b0 :: bs).getLast? ≠ some [] := by
      rw [List.getLast?_append_cons]
      exact hlast
    have hLne : (ps.flatMap fun pr => pr.1 ++ [pr.2]) ++ b0 :: bs ≠ [] := by simp
    have hsplit :
        pySplitlines ((joinLF ((ps.flatMap fun pr => pr.1 ++ [pr.2]) ++ b0 :: bs)).length + 1)
          (joinLF ((ps.flatMap fun pr => pr.1 ++ [pr.2]) ++ b0 :: bs)) =
          (ps.flatMap fun pr => pr.1 ++ [pr.2]) ++ b0 :: bs :=
      pySplitlines_joinLF _ _
        (Nat.le_of_lt_succ (Nat.lt_succ_of_le (length_le_joinLF_length _)))
        hbound hLlast hLne
    have hcollect := collectPreamble_structured ps (b0 :: bs)
      (fun pr hpr => ⟨fun b hb => ((hps pr hpr).1 b hb).2,
        (hps pr hpr).2.2.1, (hps pr hpr).2.2.2.1, (hps pr hpr).2.2.2.2⟩)
      (Or.inr ⟨b0, bs, rfl, hb0s, hb0m⟩)
    have hmapne : (ps.map (·.2)).isEmpty = false := by
      rcases ps with _ | _
      · exact absurd rfl hne
      · rfl
    have hdropb : (b0 :: bs).dropWhile (fun ln => (pyStripWith pyIsSpace ln).isEmpty) =
        b0 :: bs := by
      have hie : ((pyStripWith pyIsSpace b0).isEmpty) = false := by
        rcases h : pyStripWith pyIsSpace b0 with _ | _
        · exact absurd h hb0s
        · rfl
      simp [List.dropWhile, hie]
    unfold compact_leading_metadata_preamble
    have hdata : (String.mk (joinLF ((ps.flatMap fun pr => pr.1 ++ [pr.2]) ++ b0 :: bs))).data =
        joinLF ((ps.flatMap fun pr => pr.1 ++ [pr.2]) ++ b0 :: bs) := rfl
    rw [hdata, hsplit, hcollect]
    simp only [hmapne, Bool.false_eq_true, if_false, hdropb]
  · rfl

/-- Witness for C9: the claim's metadata block — status, display-title, a
blank line, toc directive, file reference, then body — compacts to the four
directives concatenated with the body attached, in input order with no blank
lines. -/
theorem C9_compact_preamble_witness :
    compact_leading_metadata_preamble (String.mk (joinLF
        (([(([] : List (List Char)), "\x7b\x7bTranslation_status|status=machine\x7d\x7d".data),
           ([], "\x7b\x7bDISPLAYTITLE:T\x7d\x7d".data),
           ([[]], "__NOTOC__".data),
           ([], "[[File:x.jpg]]".data)].flatMap fun pr => pr.1 ++ [pr.2]) ++
         "Body".data :: []))) =
      String.mk
        (([(([] : List (List Char)), "\x7b\x7bTranslation_status|status=machine\x7d\x7d".data),
           ([], "\x7b\x7bDISPLAYTITLE:T\x7d\x7d".data),
           ([[]], "__NOTOC__".data),
           ([], "[[File:x.jpg]]".data)].map (·.2)).flatten ++
         (joinLF ("Body".data :: [])).dropWhile (fun c => c == ' ' || c == '\t')) := by
  exact (C9_compact_preamble
    [(([] : List (List Char)), "\x7b\x7bTranslation_status|status=machine\x7d\x7d".data),
     ([], "\x7b\x7bDISPLAYTITLE:T\x7d\x7d".data),
     ([[]], "__NOTOC__".data),
     ([], "[[File:x.jpg]]".data)]
    "Body".data []
    (by decide) (by decide) (by decide) (by decide) (by decide) (by decide) (by decide)).1

/-- C9 (counterexample): an input whose leading block lists the file
reference before the toc directive keeps that order — the emitted leading
block is `status, display-title, file, toc`, not the claimed fixed order
`status, display-title, toc, file`: in the output the file reference occurs
at index 55 and `__NOTOC__` only at index 69. -/
theorem C9_counterexample_order_preserved :
    compact_leading_metadata_preamble (normalize_leading_status_directives
        "\x7b\x7bTranslation_status|status=machine\x7d\x7d\n\x7b\x7bDISPLAYTITLE:T\x7d\x7d\n[[File:x.jpg]]\n__NOTOC__\nBody") =
      "\x7b\x7bTranslation_status|status=machine\x7d\x7d\x7b\x7bDISPLAYTITLE:T\x7d\x7d[[File:x.jpg]]__NOTOC__Body" ∧
    firstInfixPos "[[File:".data
      ("\x7b\x7bTranslation_status|status=machine\x7d\x7d\x7b\x7bDISPLAYTITLE:T\x7d\x7d[[File:x.jpg]]__NOTOC__Body" : String).data =
      some 55 ∧
    firstInfixPos "__NOTOC__".data
      ("\x7b\x7bTranslation_status|status=machine\x7d\x7d\x7b\x7bDISPLAYTITLE:T\x7d\x7d[[File:x.jpg]]__NOTOC__Body" : String).data =
      some 69 ∧
    (55 : Nat) < 69 := by
  exact ⟨by rfl, by rfl, by rfl, by decide⟩

end WikiBot
